import Mathlib

set_option maxRecDepth 8000

/-!
Verification development for the NovaAPI client repository
(`api_call_extension`): a shallow embedding, in Lean 4, of the parts of
the TypeScript source that the specification's testable properties talk
about, together with proofs or refutations of those properties.

Embedding conventions:
* TypeScript strings are Lean `String`s; where character-level scanning
  is required the embedding works on `String.data : List Char`.
* JSON values (as produced by `JSON.parse` and manipulated by the JSON
  query engine) are modelled by the inductive type `Json` below.
  JavaScript numbers are modelled as integers (`Int`): no claim in scope
  depends on fractional or floating-point behaviour.
* JavaScript `undefined` is modelled as `Option.none` where it can occur
  (e.g. the result of walking a dotted path); `null` is `Json.null`.
* Platform primitives that execute arbitrary code (`new Function`,
  `new RegExp`) are modelled as explicit function parameters: a
  transformation script that throws is a function returning
  `Except.error`.
* Recursive functions over `Json` are written as mutual structural
  recursions (one walker per nested list) so that they evaluate by
  kernel reduction on concrete inputs.
-/

/-! ## Generic character/string helpers -/

/-- Whitespace as matched by the JavaScript regex class `\s` and by
`String.prototype.trim`, restricted to the four ASCII whitespace
characters that can occur in the inputs considered here (the full JS
class also contains `\f`, `\v` and Unicode spaces). -/
def isJsSpace (c : Char) : Bool :=
  c = ' ' || c = '\t' || c = '\n' || c = '\r'

/-- `leadB pat cs` is true when `pat` is a leading block of `cs`
(the character-list version of `String.prototype.startsWith`). -/
def leadB : List Char → List Char → Bool
  | [], _ => true
  | _ :: _, [] => false
  | a :: as, b :: bs => a = b && leadB as bs

/-- `endsB pat cs`: `cs` ends with the block `pat`
(`String.prototype.endsWith`). -/
def endsB (pat cs : List Char) : Bool :=
  leadB pat.reverse cs.reverse

/-- `subB needle hay` is true when `needle` occurs contiguously inside
`hay` (the character-list version of `String.prototype.includes`). -/
def subB : List Char → List Char → Bool
  | needle, [] => needle.isEmpty
  | needle, c :: t => leadB needle (c :: t) || subB needle t

/-- `String.prototype.includes`, on Lean strings. -/
def includesB (hay needle : String) : Bool :=
  subB needle.data hay.data

/-- `String.prototype.trim` (see `isJsSpace` for the whitespace class). -/
def jsTrim (cs : List Char) : List Char :=
  ((cs.dropWhile isJsSpace).reverse.dropWhile isJsSpace).reverse

/-- ASCII lower-casing of a string, one character at a time: the model of
`String.prototype.toLowerCase` for the ASCII data handled here. -/
def lowerStr (s : String) : String :=
  ⟨s.data.map Char.toLower⟩

/-- `String.prototype.startsWith` on Lean strings. -/
def startsB (hay pat : String) : Bool :=
  leadB pat.data hay.data

/-- `String.prototype.endsWith` on Lean strings. -/
def endsWithB (hay pat : String) : Bool :=
  endsB pat.data hay.data

/-- Split a character list at every occurrence of `sep`: the model of
JavaScript `String.prototype.split` with a single-character separator
(`"a:b".split(':') = ["a","b"]`, `"".split(':') = [""]`). -/
def splitOnChar (sep : Char) : List Char → List (List Char)
  | [] => [[]]
  | c :: t =>
    match splitOnChar sep t with
    | [] => [[c]]
    | h :: r => if c = sep then [] :: h :: r else (c :: h) :: r

/-- Decimal digits. -/
def isDigitCh (c : Char) : Bool := '0' ≤ c && c ≤ '9'

/-- Uppercase ASCII letters (the JS regex class `[A-Z]`). -/
def isUpperCh (c : Char) : Bool := 'A' ≤ c && c ≤ 'Z'

/-- Numeric value of a decimal digit list (most significant first). -/
def natOfDigits : List Char → Nat → Nat
  | [], acc => acc
  | c :: t, acc => natOfDigits t (acc * 10 + (c.toNat - '0'.toNat))

/-! ## The JSON value model -/

/-- Parsed JSON values.  `num` carries an `Int`: JavaScript numbers are
modelled as integers (no claim in scope depends on fractional values).
Object fields are an ordered association list, mirroring JavaScript's
insertion-ordered objects; real JS objects never carry duplicate keys. -/
inductive Json where
  | null
  | bool (b : Bool)
  | num (n : Int)
  | str (s : String)
  | arr (elems : List Json)
  | obj (fields : List (String × Json))

/-- The fields of an object value (and `[]` for every other value). -/
def jsonFieldsOf : Json → List (String × Json)
  | .obj ps => ps
  | _ => []

mutual
/-- Structural equality test for `Json` (used only to obtain decidable
equality on concrete values; `deriving DecidableEq` is unavailable for
this nested inductive). -/
def jeq : Json → Json → Bool
  | .null, .null => true
  | .bool a, .bool b => a == b
  | .num a, .num b => a == b
  | .str a, .str b => a == b
  | .arr a, .arr b => jeqList a b
  | .obj a, .obj b => jeqFields a b
  | _, _ => false
def jeqList : List Json → List Json → Bool
  | [], [] => true
  | a :: as, b :: bs => jeq a b && jeqList as bs
  | _, _ => false
def jeqFields : List (String × Json) → List (String × Json) → Bool
  | [], [] => true
  | (k1, v1) :: as, (k2, v2) :: bs => k1 == k2 && jeq v1 v2 && jeqFields as bs
  | _, _ => false
end

mutual
/-- JavaScript `String(v)` for a JSON value: `String(null) = "null"`,
arrays join their elements with `","` (with `null` elements rendered as
the empty string, per `Array.prototype.join`), plain objects render as
`"[object Object]"`. -/
def jsString : Json → String
  | .null => "null"
  | .bool b => if b then "true" else "false"
  | .num n => toString n
  | .str s => s
  | .arr xs => jsStringArr xs
  | .obj _ => "[object Object]"
def jsStringArr : List Json → String
  | [] => ""
  | [x] => jsStringElem x
  | x :: y :: rest => jsStringElem x ++ "," ++ jsStringArr (y :: rest)
def jsStringElem : Json → String
  | .null => ""
  | .bool b => if b then "true" else "false"
  | .num n => toString n
  | .str s => s
  | .arr xs => jsStringArr xs
  | .obj _ => "[object Object]"
end

/-- `String(v)` where `v` may be `undefined` (`none`). -/
def jsStringU : Option Json → String
  | none => "undefined"
  | some v => jsString v

/-- `String(v ?? '')`: `null` and `undefined` collapse to `""` first. -/
def jsStringOrEmpty : Option Json → String
  | none => ""
  | some .null => ""
  | some v => jsString v

/-- JavaScript `Number(s)` for a (trimmed) string, restricted to the
integer literals representable in this model: `""` coerces to `0`, an
optionally signed digit string to its value, anything else to `NaN`
(`none`).  (JS additionally accepts float/hex literals; numbers are
modelled as integers throughout.) -/
def jsNumberStr (s : String) : Option Int :=
  let cs := jsTrim s.data
  if cs = [] then some 0
  else if cs.all isDigitCh then some (Int.ofNat (natOfDigits cs 0))
  else if leadB ['-'] cs && cs.tail ≠ [] && cs.tail.all isDigitCh then
    some (-(Int.ofNat (natOfDigits cs.tail 0)))
  else if leadB ['+'] cs && cs.tail ≠ [] && cs.tail.all isDigitCh then
    some (Int.ofNat (natOfDigits cs.tail 0))
  else none

/-- JavaScript `Number(v)` for a JSON value; `none` models `NaN`.
Arrays coerce through their string form, plain objects to `NaN`. -/
def jsNumber : Json → Option Int
  | .null => some 0
  | .bool b => some (if b then 1 else 0)
  | .num n => some n
  | .str s => jsNumberStr s
  | .arr xs => jsNumberStr (jsString (.arr xs))
  | .obj _ => none

/-- `Number(v)` where `v` may be `undefined` (`Number(undefined) = NaN`). -/
def jsNumberU : Option Json → Option Int
  | none => none
  | some v => jsNumber v

/-- `a > b` on JS numbers: any comparison involving `NaN` is false. -/
def numGt : Option Int → Option Int → Bool
  | some a, some b => a > b
  | _, _ => false

/-- `a < b` on JS numbers: any comparison involving `NaN` is false. -/
def numLt : Option Int → Option Int → Bool
  | some a, some b => a < b
  | _, _ => false

/-! ## JsonOps: schema discovery (`availableFields` / `extractPaths`)

Embedding of `src/components/JsonOps.tsx`, lines 24-43. -/

/-- The recursion guard of `extractPaths`
(`obj[k] && typeof obj[k] === 'object' && !Array.isArray(obj[k]) &&
Object.keys(obj[k]).length < 10 && path.split('.').length < 3`):
only a non-null, non-array object value with fewer than 10 own keys is
descended into, and only while the current path has fewer than 3
dot-separated segments.  `path.split('.').length` equals the number of
`'.'` characters in `path` plus one. -/
def recurseGuard : Json → String → Bool
  | .obj fs, path => fs.length < 10 && (path.data.count '.' + 1 < 3)
  | _, _ => false

mutual
/-- `extractPaths` of `JsonOps.availableFields`: enumerate the dotted
field paths of a JSON value.  Non-objects (including arrays and `null`)
contribute nothing; each key `k` of an object contributes the path
`prefix ? prefix + '.' + k : k`, followed (in `forEach` order) by the
recursive paths of its value when `recurseGuard` allows the descent. -/
def extractPaths : Json → String → List String
  | .obj fields, pre => extractPathsFields fields pre
  | _, _ => []
def extractPathsFields : List (String × Json) → String → List String
  | [], _ => []
  | (k, v) :: rest, pre =>
    let path := if pre = "" then k else pre ++ "." ++ k
    (path :: (if recurseGuard v path then extractPaths v path else [])) ++
      extractPathsFields rest pre
end

/-- `Array.isArray(data) ? data.slice(0, 50) : [data]`: the sample of
items that schema discovery scans. -/
def sampleItems : Json → List Json
  | .arr xs => xs.take 50
  | j => [j]

/-- First-occurrence deduplication, the order in which a JavaScript
`Set` accumulates the discovered paths. -/
def dedupFirst : List String → List String → List String
  | [], _ => []
  | x :: t, seen =>
    if seen.contains x then dedupFirst t seen else x :: dedupFirst t (x :: seen)

/-- Code-unit lexicographic order on strings: the default comparator of
JavaScript `Array.prototype.sort` (for the ASCII paths handled here). -/
def strLeB : List Char → List Char → Bool
  | [], _ => true
  | _ :: _, [] => false
  | a :: as, b :: bs => if a = b then strLeB as bs else decide (a < b)

/-- Insertion sort with `strLeB`; the discovered paths are pairwise
distinct after deduplication, so any correct sort produces the same
list as `Array.prototype.sort`. -/
def insertSorted (x : String) : List String → List String
  | [] => [x]
  | y :: t => if strLeB x.data y.data then x :: y :: t else y :: insertSorted x t

def sortStrings : List String → List String
  | [] => []
  | x :: t => insertSorted x (sortStrings t)

/-- `JsonOps.availableFields`: scan up to 50 items, collect the paths of
each into a `Set` (first-occurrence order), and sort the result. -/
def availableFields (data : Json) : List String :=
  sortStrings (dedupFirst ((sampleItems data).flatMap (fun i => extractPaths i "")) [])

/-! ## JsonOps: the advanced-search filter engine

Embedding of `src/components/JsonOps.tsx`, lines 62-99. -/

/-- A filter criterion (`JsonOps.tsx` interface `Criterion`). -/
structure Criterion where
  id : String
  field : String
  op : String
  value : String

/-- `prev?.[curr]`: one step of property access under optional chaining.
Accessing a property of `null`/`undefined` yields `undefined`; arrays
are indexable by their canonical decimal index strings; single-character
access into strings mirrors JS string indexing (other exotic properties
such as `length` are not modelled — no claim depends on them). -/
def parseArrayIndex (k : String) : Option Nat :=
  if k.data ≠ [] && k.data.all isDigitCh &&
      (k.data.head? = some '0' → k.data = ['0']) then
    some (natOfDigits k.data 0)
  else none

def jsIndex : Option Json → String → Option Json
  | none, _ => none
  | some (.obj fields), k => (fields.find? (fun p => p.1 == k)).map (·.2)
  | some (.arr xs), k => (parseArrayIndex k).bind (fun i => xs.get? i)
  | some (.str s), k => (parseArrayIndex k).bind (fun i => (s.data.get? i).map (fun c => .str ⟨[c]⟩))
  | some _, _ => none

/-- `getValueByPath` of `handleAdvancedSearch`:
`path.split('.').reduce((prev, curr) => prev?.[curr], obj)`. -/
def getValueByPath (item : Json) (path : String) : Option Json :=
  ((splitOnChar '.' path.data).map (fun cs => (⟨cs⟩ : String))).foldl jsIndex (some item)

instance : BEq Json := ⟨jeq⟩

/-- One criterion evaluated against one row (`criteria.map(c => ...)`
body of `filterFn`).  `regexTest pat s` is a parameter modelling
`new RegExp(pat, 'i').test(s)` with the surrounding `try/catch` that
returns `false` for a malformed pattern. -/
def evalCriterion (regexTest : String → String → Bool) (item : Json)
    (c : Criterion) : Bool :=
  if c.field == "" && c.op != "search" then true
  else
    let val := getValueByPath item c.field
    let itemStr := lowerStr (jsStringOrEmpty val)
    let targetStr := lowerStr c.value
    if c.op == "equals" then jsStringU val == c.value
    else if c.op == "contains" then includesB itemStr targetStr
    else if c.op == "gt" then numGt (jsNumberU val) (jsNumberStr c.value)
    else if c.op == "lt" then numLt (jsNumberU val) (jsNumberStr c.value)
    else if c.op == "startsWith" then startsB itemStr targetStr
    else if c.op == "endsWith" then endsWithB itemStr targetStr
    else if c.op == "regex" then regexTest c.value (jsStringU val)
    else if c.op == "isEmpty" then
      val == none || val == some .null || val == some (.str "")
    else if c.op == "isNotEmpty" then
      !(val == none || val == some .null || val == some (.str ""))
    else true

/-- The whole-row predicate `filterFn` of `handleAdvancedSearch`: every
criterion is evaluated, an empty criteria list matches everything, and
otherwise the per-criterion results are combined with `every` (AND) or
`some` (OR). -/
def filterFn (regexTest : String → String → Bool) (matchType : String)
    (criteria : List Criterion) (item : Json) : Bool :=
  let results := criteria.map (evalCriterion regexTest item)
  if criteria.length == 0 then true
  else if matchType == "AND" then results.all (fun r => r == true)
  else results.any (fun r => r == true)

/-- `const filteredResult = data.filter(filterFn)` on an array response. -/
def advancedSearchResult (regexTest : String → String → Bool)
    (matchType : String) (criteria : List Criterion) (data : List Json) :
    List Json :=
  data.filter (filterFn regexTest matchType criteria)

/-! ## JsonOps / DataTable: the flatten transforms

Embedding of `handleQuickOp`'s `flatten` (`JsonOps.tsx`, lines 140-153)
and of `DataTable.flattenObject` (`DataTable.tsx`, lines 26-39).  Both
share the same `reduce` body; they differ only in how non-object inputs
are treated. -/

/-- `acc[key] = v` on a JavaScript object: overwrite in place when the
key exists (keeping its original position), append otherwise. -/
def insAssign (acc : List (String × Json)) (k : String) (v : Json) :
    List (String × Json) :=
  if acc.any (fun p => p.1 == k) then
    acc.map (fun p => if p.1 == k then (k, v) else p)
  else acc ++ [(k, v)]

/-- `Object.assign(acc, src)`: assign every field of `src` into `acc`,
in order. -/
def assignPairs (acc ps : List (String × Json)) : List (String × Json) :=
  ps.foldl (fun a p => insAssign a p.1 p.2) acc

mutual
/-- The `flatten` closure of `JsonOps.handleQuickOp`:
non-objects (`!obj || typeof obj !== 'object'`, which includes `null`)
are returned unchanged; objects and arrays are reduced over their keys
(array keys being the index strings `"0"`, `"1"`, ...), recursing into
plain-object values with the dot-joined key and keeping every other
value — arrays included — as a leaf. -/
def flattenJson : Json → String → Json
  | .obj fields, pre => .obj (flattenFields fields pre [])
  | .arr elems, pre => .obj (flattenArr elems 0 pre [])
  | j, _ => j
def flattenFields : List (String × Json) → String → List (String × Json) →
    List (String × Json)
  | [], _, acc => acc
  | (k, v) :: rest, pre, acc =>
    let key := (if pre = "" then "" else pre ++ ".") ++ k
    match v with
    | .obj _ => flattenFields rest pre
        (assignPairs acc (jsonFieldsOf (flattenJson v key)))
    | _ => flattenFields rest pre (insAssign acc key v)
def flattenArr : List Json → Nat → String → List (String × Json) →
    List (String × Json)
  | [], _, _, acc => acc
  | x :: rest, i, pre, acc =>
    let key := (if pre = "" then "" else pre ++ ".") ++ toString i
    match x with
    | .obj _ => flattenArr rest (i + 1) pre
        (assignPairs acc (jsonFieldsOf (flattenJson x key)))
    | _ => flattenArr rest (i + 1) pre (insAssign acc key x)
end

/-- The `flatten` quick operation as applied by `handleQuickOp`:
mapped over an array response, applied directly otherwise. -/
def handleQuickFlatten : Json → Json
  | .arr xs => .arr (xs.map (fun i => flattenJson i ""))
  | d => flattenJson d ""

/-- `DataTable.flattenObject`: identical reduce body, but `null` and
non-object inputs are wrapped as `{ value: obj }`. -/
def flattenObject : Json → String → Json
  | .obj fields, pre => .obj (flattenFields fields pre [])
  | .arr elems, pre => .obj (flattenArr elems 0 pre [])
  | j, _ => .obj [("value", j)]

/-! ## Request data model

`Header` is shared by every variant of `types.ts`.  `RequestConfig`
follows `src/unnamed/part_003` (the flat config used by `App.tsx`,
`CodeGenV1` and `CodeGenP0`); `RequestConfigV2` follows `src/types.ts`
(the scenario-based config used by `CodeGenV2`).  `Method`, `BodyType`
etc. are TypeScript unions of string literals and are modelled as
`String`. -/

structure Header where
  key : String
  value : String
  enabled : Bool
deriving DecidableEq

structure RequestConfig where
  name : Option String := none
  url : String
  method : String
  headers : List Header
  body : String
  bodyType : String
  transformationScript : String := ""
  processingMode : String := "client"
deriving DecidableEq

structure Scenario where
  id : String
  name : String
  body : String
  bodyType : String
  headers : List Header
  params : List Header
  version : String
  lastChanged : String
  pushedBy : Option String := none
deriving DecidableEq

structure AuthConfig where
  type : String
  username : Option String := none
  password : Option String := none
  token : Option String := none
  key : Option String := none
  value : Option String := none
  addTo : String
deriving DecidableEq

structure RequestConfigV2 where
  id : String
  url : String
  method : String
  auth : Option AuthConfig := none
  scenarios : List Scenario
  activeScenarioIndex : Nat
  collectionId : Option String := none
deriving DecidableEq

/-! ## Shared snippet-generator helpers -/

/-- `headers.filter(h => h.enabled && h.key)`: only enabled headers with
a non-empty key are materialized. -/
def enabledHeadersOf (headers : List Header) : List Header :=
  headers.filter (fun h => h.enabled && h.key != "")

/-- `{...acc, [k]: v}`: object spread assignment — an existing key keeps
its original position and is overwritten, a new key is appended. -/
def spreadInsert (acc : List (String × String)) (k v : String) :
    List (String × String) :=
  if acc.any (fun p => p.1 == k) then
    acc.map (fun p => if p.1 == k then (k, v) else p)
  else acc ++ [(k, v)]

/-- `enabledHeaders.reduce((acc, h) => ({ ...acc, [h.key]: h.value }), {})`:
the single-valued header object used by the JSON-serialized templates
(duplicate keys collapse, last write wins). -/
def headerObjOf (hs : List Header) : List (String × String) :=
  hs.foldl (fun acc h => spreadInsert acc h.key h.value) []

/-- Hexadecimal digit characters (lowercase, as emitted by
`JSON.stringify` control-character escapes). -/
def hexDigit (n : Nat) : Char :=
  if n < 10 then Char.ofNat ('0'.toNat + n) else Char.ofNat ('a'.toNat + (n - 10))

/-- The string-escaping rule of `JSON.stringify` for one character. -/
def jsonEscapeChar (c : Char) : List Char :=
  if c = '"' then ['\\', '"']
  else if c = '\\' then ['\\', '\\']
  else if c = '\n' then ['\\', 'n']
  else if c = '\r' then ['\\', 'r']
  else if c = '\t' then ['\\', 't']
  else if c = '\x08' then ['\\', 'b']
  else if c = '\x0c' then ['\\', 'f']
  else if c.toNat < 0x20 then
    ['\\', 'u', '0', '0', hexDigit (c.toNat / 16), hexDigit (c.toNat % 16)]
  else [c]

def jsonEscape (s : String) : String :=
  ⟨s.data.flatMap jsonEscapeChar⟩

/-- `JSON.stringify(obj, null, indent)` for a flat string-to-string
object: `"{}"` when empty, otherwise one `"key": "value"` line per
field at the given indent. -/
def jsonStringifyFlat (indent : Nat) (obj : List (String × String)) : String :=
  if obj.isEmpty then "\x7b\x7d"
  else
    let pad : String := ⟨List.replicate indent ' '⟩
    "\x7b\n" ++
      String.intercalate ",\n"
        (obj.map (fun p =>
          pad ++ "\"" ++ jsonEscape p.1 ++ "\": \"" ++ jsonEscape p.2 ++ "\"")) ++
      "\n\x7d"

/-- `JSON.stringify` of a plain string value (used where a template
serializes the raw body string). -/
def jsonStringifyStr (s : String) : String :=
  "\"" ++ jsonEscape s ++ "\""

/-- `body.replace(/'/g, "'\\''")`: the shell single-quote escape used by
the curl templates. -/
def escBodyCurl (s : String) : String :=
  ⟨s.data.flatMap (fun c => if c = '\'' then ['\'', '\\', '\'', '\''] else [c])⟩

/-- `body.replace(/"/g, "\\\"")`: the double-quote escape of the Java
template. -/
def escQuoteJava (s : String) : String :=
  ⟨s.data.flatMap (fun c => if c = '"' then ['\\', '"'] else [c])⟩

/-! ## Snippet generator, first variant

Embedding of `src/utils/codeGenerator.ts`, first document (lines 4-88):
targets `curl`, `javascript`, `python`, `go`, `java`. -/

namespace CodeGenV1

def curlCase (url method body : String) (enabledHeaders : List Header) : String :=
  "curl --location --request " ++ method ++ " '" ++ url ++ "'" ++
    String.join (enabledHeaders.map (fun h =>
      " \\\n--header '" ++ h.key ++ ": " ++ h.value ++ "'")) ++
    (if body != "" && method != "GET" then
      " \\\n--data-raw '" ++ escBodyCurl body ++ "'"
    else "")

def javascriptCase (url method body : String)
    (headerObj : List (String × String)) : String :=
  "fetch(\"" ++ url ++ "\", \x7b\n  method: \"" ++ method ++ "\",\n  headers: " ++
    jsonStringifyFlat 2 headerObj ++ ",\n  " ++
    (if body != "" && method != "GET" then
      "body: JSON.stringify(" ++ body ++ ")"
    else "") ++
    "\n\x7d)\n.then(response => response.text())\n.then(result => console.log(result))\n.catch(error => console.log('error', error));"

def pythonCase (url method body : String)
    (headerObj : List (String × String)) : String :=
  "import requests\nimport json\n\nurl = \"" ++ url ++ "\"\npayload = " ++
    (if body != "" then body else "None") ++
    "\nheaders = " ++ jsonStringifyFlat 2 headerObj ++
    "\n\nresponse = requests.request(\"" ++ method ++
    "\", url, headers=headers, data=payload)\nprint(response.text)"

def goCase (url method body : String) (enabledHeaders : List Header) : String :=
  "package main\n\nimport (\n  \"fmt\"\n  \"strings\"\n  \"net/http\"\n  \"io/ioutil\"\n)\n\nfunc main() \x7b\n  url := \"" ++
    url ++ "\"\n  method := \"" ++ method ++
    "\"\n  payload := strings.NewReader(`" ++ body ++
    "`)\n\n  client := &http.Client \x7b\x7d\n  req, _ := http.NewRequest(method, url, payload)\n\n  " ++
    String.intercalate "\n  " (enabledHeaders.map (fun h =>
      "req.Header.Add(\"" ++ h.key ++ "\", \"" ++ h.value ++ "\")")) ++
    "\n\n  res, _ := client.Do(req)\n  defer res.Body.Close()\n\n  body, _ := ioutil.ReadAll(res.Body)\n  fmt.Println(string(body))\n\x7d"

def javaCase (url method body : String) (enabledHeaders : List Header) : String :=
  "OkHttpClient client = new OkHttpClient().newBuilder().build();\nMediaType mediaType = MediaType.parse(\"text/plain\");\nRequestBody body = RequestBody.create(mediaType, \"" ++
    escQuoteJava body ++
    "\");\nRequest request = new Request.Builder()\n  .url(\"" ++ url ++
    "\")\n  .method(\"" ++ method ++ "\", body)\n  " ++
    String.intercalate "\n  " (enabledHeaders.map (fun h =>
      ".addHeader(\"" ++ h.key ++ "\", \"" ++ h.value ++ "\")")) ++
    "\n  .build();\nResponse response = client.newCall(request).execute();"

/-- `generateLocalCode` (first variant): dispatch on `language` over the
closed set `curl | javascript | python | go | java`, with a placeholder
comment for anything else. -/
def generateLocalCode (config : RequestConfig) (language : String) : String :=
  let enabledHeaders := enabledHeadersOf config.headers
  if language == "curl" then
    curlCase config.url config.method config.body enabledHeaders
  else if language == "javascript" then
    javascriptCase config.url config.method config.body (headerObjOf enabledHeaders)
  else if language == "python" then
    pythonCase config.url config.method config.body (headerObjOf enabledHeaders)
  else if language == "go" then
    goCase config.url config.method config.body enabledHeaders
  else if language == "java" then
    javaCase config.url config.method config.body enabledHeaders
  else "// Language not supported"

/-- The five supported targets of this variant. -/
def supportedLangs : List String := ["curl", "javascript", "python", "go", "java"]

end CodeGenV1

/-! ## Snippet generator, second variant

Embedding of `src/utils/codeGenerator.ts`, second document (lines
92-280): scenario-based config, database-query modes
(`MONGO_QUERY` / `SQL_QUERY`) and the REST targets `javascript-fetch`,
`javascript-axios`, `python-requests`, `curl`. -/

namespace CodeGenV2

def nodeMongoCase (url body : String) : String :=
  "const \x7b MongoClient \x7d = require('mongodb');\n\nasync function runQuery() \x7b\n  const client = new MongoClient('" ++
    url ++
    "');\n  try \x7b\n    await client.connect();\n    const db = client.db('target_db');\n    const col = db.collection('target_collection');\n    \n    // Auto-generated query\n    const query = " ++
    body ++
    ";\n    const result = await col.find(query).toArray();\n    console.log(result);\n  \x7d catch (err) \x7b\n    console.error(\"Execution failed:\", err);\n  \x7d finally \x7b\n    await client.close();\n  \x7d\n\x7d\n\nrunQuery();"

def pymongoCase (url body : String) : String :=
  "from pymongo import MongoClient\n\ndef run_query():\n    client = MongoClient('" ++
    url ++
    "')\n    db = client['target_db']\n    collection = db['target_collection']\n    \n    # Auto-generated query\n    query = " ++
    body ++
    "\n    results = collection.find(query)\n    for doc in results:\n        print(doc)\n\nif __name__ == \"__main__\":\n    run_query()"

def nodePgCase (url body : String) : String :=
  "const \x7b Client \x7d = require('pg');\n\nasync function executeSql() \x7b\n  const client = new Client(\x7b connectionString: '" ++
    url ++
    "' \x7d);\n  try \x7b\n    await client.connect();\n    const res = await client.query(`" ++
    body ++
    "`);\n    console.log(res.rows);\n  \x7d catch (err) \x7b\n    console.error(err.stack);\n  \x7d finally \x7b\n    await client.end();\n  \x7d\n\x7d\n\nexecuteSql();"

def nodeMysqlCase (url body : String) : String :=
  "const mysql = require('mysql2/promise');\n\nasync function executeSql() \x7b\n  const connection = await mysql.createConnection('" ++
    url ++
    "');\n  try \x7b\n    const [rows, fields] = await connection.execute(`" ++
    body ++
    "`);\n    console.log(rows);\n  \x7d catch (err) \x7b\n    console.error(err);\n  \x7d finally \x7b\n    await connection.end();\n  \x7d\n\x7d\n\nexecuteSql();"

def psycopgCase (url body : String) : String :=
  "import psycopg2\n\ndef execute_sql():\n    conn = psycopg2.connect('" ++
    url ++
    "')\n    cur = conn.cursor()\n    try:\n        cur.execute(\"\"\"" ++
    body ++
    "\"\"\")\n        rows = cur.fetchall()\n        for row in rows:\n            print(row)\n    except Exception as e:\n        print(f\"Error: \x7be\x7d\")\n    finally:\n        cur.close()\n        conn.close()\n\nif __name__ == \"__main__\":\n    execute_sql()"

def sqlRawCase (body : String) : String :=
  "-- Raw Generated Query\n" ++ body

def jsFetchCase (url method body : String)
    (headerObj : List (String × String)) : String :=
  "const executeRequest = async () => \x7b\n  const options = \x7b\n    method: '" ++
    method ++ "',\n    headers: " ++ jsonStringifyFlat 2 headerObj ++ ",\n    " ++
    (if body != "" && !(method == "GET" || method == "HEAD") then
      "body: JSON.stringify(" ++ body ++ ")"
    else "") ++
    "\n  \x7d;\n\n  try \x7b\n    const response = await fetch('" ++ url ++
    "', options);\n    const data = await response.json();\n    return data;\n  \x7d catch (error) \x7b\n    console.error('Fetch error:', error);\n  \x7d\n\x7d;"

def jsAxiosCase (url method body : String)
    (headerObj : List (String × String)) : String :=
  "import axios from 'axios';\n\nconst executeRequest = async () => \x7b\n  try \x7b\n    const response = await axios(\x7b\n      url: '" ++
    url ++ "',\n      method: '" ++ method ++ "',\n      headers: " ++
    jsonStringifyFlat 2 headerObj ++ ",\n      " ++
    (if body != "" && !(method == "GET" || method == "HEAD") then
      "data: " ++ body
    else "") ++
    "\n    \x7d);\n    return response.data;\n  \x7d catch (error) \x7b\n    console.error('Axios error:', error);\n  \x7d\n\x7d;"

def pyRequestsCase (url method body : String)
    (headerObj : List (String × String)) : String :=
  "import requests\nimport json\n\ndef execute_request():\n    url = '" ++
    url ++ "'\n    headers = " ++ jsonStringifyFlat 4 headerObj ++ "\n    " ++
    (if body != "" && !(method == "GET" || method == "HEAD") then
      "payload = " ++ body
    else "payload = None") ++
    "\n\n    try:\n        response = requests.request(\n            \"" ++
    method ++
    "\", \n            url, \n            headers=headers, \n            data=json.dumps(payload) if payload else None\n        )\n        response.raise_for_status()\n        return response.json()\n    except requests.exceptions.RequestException as e:\n        print(f\"Error: \x7be\x7d\")\n\nif __name__ == \"__main__\":\n    result = execute_request()\n    print(result)"

def curlCase (url method body : String) (enabledHeaders : List Header) : String :=
  let headerString := String.intercalate " "
    (enabledHeaders.map (fun h => "-H \"" ++ h.key ++ ": " ++ h.value ++ "\""))
  let dataString :=
    if body != "" && !(method == "GET" || method == "HEAD") then
      "-d '" ++ escBodyCurl body ++ "'"
    else ""
  "curl -X " ++ method ++ " \"" ++ url ++ "\" \\\n  " ++ headerString ++
    " \\\n  " ++ dataString

/-- `config.scenarios[config.activeScenarioIndex] || config.scenarios[0]`:
the scenario whose headers and body the generator uses. -/
def activeScenario (config : RequestConfigV2) : Option Scenario :=
  (config.scenarios.get? config.activeScenarioIndex).orElse
    (fun _ => config.scenarios.get? 0)

/-- The dispatch of `generateLocalCode` (second variant) over the
values destructured from the config: database-query methods dispatch to
their own template sets, everything else to the REST switch. -/
def dispatch (url method : String) (headers : List Header) (body : String)
    (language : String) : String :=
  let enabledHeaders := enabledHeadersOf headers
  let headerObj := headerObjOf enabledHeaders
  if method == "MONGO_QUERY" then
    if language == "node-mongodb" then nodeMongoCase url body
    else if language == "python-pymongo" then pymongoCase url body
    else "// No template for " ++ language ++ " in MongoDB mode."
  else if method == "SQL_QUERY" then
    if language == "node-pg" then nodePgCase url body
    else if language == "node-mysql2" then nodeMysqlCase url body
    else if language == "python-psycopg2" then psycopgCase url body
    else if language == "sql-raw" then sqlRawCase body
    else "// No template for " ++ language ++ " in SQL mode."
  else
    if language == "javascript-fetch" then
      jsFetchCase url method body headerObj
    else if language == "javascript-axios" then
      jsAxiosCase url method body headerObj
    else if language == "python-requests" then
      pyRequestsCase url method body headerObj
    else if language == "curl" then
      curlCase url method body enabledHeaders
    else
      "// Code template for " ++ language ++ " / " ++ method ++
        " is pending implementation."

/-- `generateLocalCode` (second variant): the active scenario supplies
headers and body (`activeScenario?.headers || []` and
`activeScenario?.body || ''` — an array is truthy even when empty, and
a missing body and an empty body both yield `''`); the rest is
`dispatch`. -/
def generateLocalCode (config : RequestConfigV2) (language : String) : String :=
  dispatch config.url config.method
    (((activeScenario config).map Scenario.headers).getD [])
    (((activeScenario config).map Scenario.body).getD "") language

/-- The targets with a real template in each mode of this variant. -/
def supportedLangs (method : String) : List String :=
  if method == "MONGO_QUERY" then ["node-mongodb", "python-pymongo"]
  else if method == "SQL_QUERY" then
    ["node-pg", "node-mysql2", "python-psycopg2", "sql-raw"]
  else ["javascript-fetch", "javascript-axios", "python-requests", "curl"]

end CodeGenV2

/-! ## Snippet generator, `src/unnamed/part_000` variant

FTP mode (`url.startsWith('ftp://')`, target `node-ftp`) plus the REST
targets `react-axios`, `angular-http`, `nextjs-server`, `js-fetch`. -/

namespace CodeGenP0

/-- The `node-ftp` template calls `new URL(url)`, a partial platform
primitive: on a malformed `ftp://` URL (for instance `"ftp://"` or
`"ftp:///x"`, whose host is empty — the special `ftp:` scheme requires a
non-empty host) it throws a `TypeError`, so the source produces **no**
snippet at all on such inputs.  `ftpHostname`/`ftpPathname` below are
total Lean functions and therefore model `new URL(url).hostname` /
`new URL(url).pathname` only on URLs satisfying `ftpUrlWellFormed`, a
conservative sufficient condition for `new URL` to succeed **and** to
perform no normalization (no IDNA/IPv4 host rewriting, no host
lowercasing, no percent-encoding, no dot-segment resolution), so that
on that domain these functions agree with the primitive exactly.
Every ftp-mode theorem below is scoped by this predicate; the throwing
error path outside it is thereby left out of the total model rather
than collapsed into it.

A host character: lowercase ASCII letters, `.` and `-`.  Digits are
excluded so that no label can parse as an IPv4 number, and `xn--`
labels are excluded separately so IDNA cannot rewrite the host. -/
def ftpHostChar (c : Char) : Bool :=
  ('a' ≤ c && c ≤ 'z') || c = '.' || c = '-'

/-- A path character on which the URL path parser is the identity:
ASCII letters and digits, `/`, `.`, `-`, `_`, `~` (none of these are in
the path percent-encode set, and `?`, `#`, `\` are excluded). -/
def ftpPathChar (c : Char) : Bool :=
  ('a' ≤ c && c ≤ 'z') || ('A' ≤ c && c ≤ 'Z') || ('0' ≤ c && c ≤ '9') ||
    c = '/' || c = '.' || c = '-' || c = '_' || c = '~'

/-- The sufficient condition described above: `url` is
`"ftp://" ++ host ++ path` with a non-empty host of `ftpHostChar`s whose
dot-separated labels are non-empty and do not start with `xn--` (hence
no userinfo, port, IPv4 or IDNA forms), and a path of `ftpPathChar`s
with no `"."` or `".."` segments (hence no query/fragment, no
percent-encoding and no dot-segment resolution).  On this set
`new URL(url)` succeeds with hostname `host` and pathname
`path` (or `"/"` when the path is empty). -/
def ftpUrlWellFormed (url : String) : Bool :=
  leadB "ftp://".data url.data &&
    (let rest := url.data.drop 6
     let host := rest.takeWhile (fun c => c ≠ '/')
     let path := rest.drop host.length
     !host.isEmpty && host.all ftpHostChar &&
       (splitOnChar '.' host).all (fun lab =>
         !lab.isEmpty && !leadB "xn--".data lab) &&
       path.all ftpPathChar &&
       (splitOnChar '/' path).all (fun seg =>
         !(seg = ['.'] || seg = ['.', '.'])))

/-- `new URL(url).hostname` on the `ftpUrlWellFormed` domain (where it
equals the authority: the predicate rules out userinfo and ports, so
the `@`/`:` stripping below is the identity there): the part between
`ftp://` and the first `/`, `?` or `#`, after the last `@` and before
any `:`. -/
def ftpHostname (url : String) : String :=
  let auth := (url.data.drop 6).takeWhile (fun c => c ≠ '/' && c ≠ '?' && c ≠ '#')
  let afterAt := ((splitOnChar '@' auth).reverse.headD [])
  ⟨afterAt.takeWhile (fun c => c ≠ ':')⟩

/-- `new URL(url).pathname` on the `ftpUrlWellFormed` domain: from the
first `/` after the authority up to any query/fragment, and `"/"` when
the URL has no path. -/
def ftpPathname (url : String) : String :=
  let rest := (url.data.drop 6).dropWhile (fun c => c ≠ '/' && c ≠ '?' && c ≠ '#')
  let path := rest.takeWhile (fun c => c ≠ '?' && c ≠ '#')
  if path = [] then "/" else ⟨path⟩

def nodeFtpCase (url : String) : String :=
  "const ftp = require(\"basic-ftp\")\n\nasync function example() \x7b\n    const client = new ftp.Client()\n    client.ftp.verbose = true\n    try \x7b\n        await client.access(\x7b\n            host: \"" ++
    ftpHostname url ++
    "\",\n            user: \"anonymous\",\n            password: \"password\",\n            secure: true\n        \x7d)\n        console.log(await client.list())\n        await client.downloadTo(\"local-file.txt\", \"" ++
    ftpPathname url ++
    "\")\n    \x7d\n    catch(err) \x7b\n        console.log(err)\n    \x7d\n    client.close()\n\x7d\n\nexample()"

def reactAxiosCase (url method body : String)
    (headerObj : List (String × String)) : String :=
  "import React, \x7b useEffect, useState \x7d from 'react';\nimport axios from 'axios';\n\nconst ApiComponent = () => \x7b\n  const [data, setData] = useState(null);\n  const [loading, setLoading] = useState(true);\n\n  useEffect(() => \x7b\n    const fetchData = async () => \x7b\n      try \x7b\n        const response = await axios(\x7b\n          url: '" ++
    url ++ "',\n          method: '" ++ method ++ "',\n          headers: " ++
    jsonStringifyFlat 2 headerObj ++ ",\n          " ++
    (if body != "" && method != "GET" then "data: " ++ body else "") ++
    "\n        \x7d);\n        setData(response.data);\n      \x7d catch (err) \x7b\n        console.error(err);\n      \x7d finally \x7b\n        setLoading(false);\n      \x7d\n    \x7d;\n    fetchData();\n  \x7d, []);\n\n  if (loading) return <div>Loading...</div>;\n  return <div>\x7bJSON.stringify(data)\x7d</div>;\n\x7d;\n\nexport default ApiComponent;"

def angularHttpCase (url method body : String)
    (headerObj : List (String × String)) : String :=
  "import \x7b HttpClient, HttpHeaders \x7d from '@angular/common/http';\nimport \x7b Component, OnInit \x7d from '@angular/core';\n\n@Component(\x7b\n  selector: 'app-api-call',\n  template: '<div *ngIf=\"data\">\x7b\x7b data | json \x7d\x7d</div>'\n\x7d)\nexport class ApiCallComponent implements OnInit \x7b\n  data: any;\n\n  constructor(private http: HttpClient) \x7b\x7d\n\n  ngOnInit() \x7b\n    const headers = new HttpHeaders(" ++
    jsonStringifyFlat 2 headerObj ++
    ");\n    this.http.request('" ++ method ++ "', '" ++ url ++
    "', \x7b\n      headers,\n      " ++
    (if body != "" && method != "GET" then "body: " ++ body else "") ++
    "\n    \x7d).subscribe(response => \x7b\n      this.data = response;\n    \x7d);\n  \x7d\n\x7d"

def nextjsServerCase (url method body : String)
    (headerObj : List (String × String)) : String :=
  "// Next.js Server Action\n'use server'\n\nexport async function fetchData() \x7b\n  const response = await fetch('" ++
    url ++ "', \x7b\n    method: '" ++ method ++ "',\n    headers: " ++
    jsonStringifyFlat 2 headerObj ++ ",\n    " ++
    (if body != "" && method != "GET" then
      "body: " ++ jsonStringifyStr body
    else "") ++
    ",\n    cache: 'no-store' // or 'force-cache'\n  \x7d);\n\n  if (!response.ok) throw new Error('Failed to fetch data');\n  return response.json();\n\x7d\n\n// In your Server Component:\n// const data = await fetchData();"

def jsFetchCase (url method body : String)
    (headerObj : List (String × String)) : String :=
  "fetch(\"" ++ url ++ "\", \x7b\n  method: \"" ++ method ++
    "\",\n  headers: " ++ jsonStringifyFlat 2 headerObj ++ ",\n  " ++
    (if body != "" && method != "GET" then
      "body: " ++ jsonStringifyStr body
    else "") ++
    "\n\x7d)\n.then(response => response.json())\n.then(result => console.log(result))\n.catch(error => console.error('Error:', error));"

/-- `generateLocalCode` (`part_000` variant): `ftp://` URLs dispatch to
the FTP switch, everything else to the REST switch. -/
def generateLocalCode (config : RequestConfig) (language : String) : String :=
  let headerObj := headerObjOf (enabledHeadersOf config.headers)
  if startsB config.url "ftp://" then
    if language == "node-ftp" then nodeFtpCase config.url
    else "// FTP operations typically require a specialized client library (e.g., 'basic-ftp' in Node.js)."
  else
    if language == "react-axios" then
      reactAxiosCase config.url config.method config.body headerObj
    else if language == "angular-http" then
      angularHttpCase config.url config.method config.body headerObj
    else if language == "nextjs-server" then
      nextjsServerCase config.url config.method config.body headerObj
    else if language == "js-fetch" then
      jsFetchCase config.url config.method config.body headerObj
    else "// Code template for this configuration is being generated..."

/-- The REST-mode targets of this variant. -/
def restLangs : List String :=
  ["react-axios", "angular-http", "nextjs-server", "js-fetch"]

end CodeGenP0

/-! ## Curl importer

Embedding of `parseCurl` from `src/unnamed/part_001` (`ImportModal`),
lines 15-60.  Each regex of the source is modelled by a leftmost-match
scanner that is faithful to the JavaScript regex semantics (ordered
alternation with backtracking, greedy/lazy quantifiers) for the
patterns involved. -/

/-- `Partial<RequestConfig>` as produced by `parseCurl`: `url` is set
only when the URL regex matches; `method`, `headers`, `body` and
`bodyType` always carry values. -/
structure PartialRequestConfig where
  url : Option String := none
  method : String
  headers : List Header
  body : String
  bodyType : String
deriving DecidableEq

/-- `curlString.replace(/\\\n/g, ' ')`: backslash-newline line
continuations become single spaces. -/
def replaceBackslashNL : List Char → List Char
  | [] => []
  | '\\' :: '\n' :: rest => ' ' :: replaceBackslashNL rest
  | c :: rest => c :: replaceBackslashNL rest

/-- The cleaned command line: `curlString.replace(/\\\n/g, ' ').trim()`. -/
def cleanCurl (s : String) : List Char :=
  jsTrim (replaceBackslashNL s.data)

/-- The character class `[^\s'"]` of the URL regex. -/
def isUrlChar (c : Char) : Bool :=
  !(isJsSpace c || c = '\'' || c = '"')

/-- One attempted match of `/(https?:\/\/[^\s'"]+)/` at the current
position (the optional surrounding quotes of the source pattern are
outside the capture group and do not constrain it). -/
def matchUrlAt (cs : List Char) : Option (List Char) :=
  if leadB "https://".data cs then
    let run := (cs.drop 8).takeWhile isUrlChar
    if run = [] then none else some ("https://".data ++ run)
  else if leadB "http://".data cs then
    let run := (cs.drop 7).takeWhile isUrlChar
    if run = [] then none else some ("http://".data ++ run)
  else none

/-- Leftmost match of the URL regex. -/
def extractUrl : List Char → Option (List Char)
  | [] => none
  | c :: t =>
    match matchUrlAt (c :: t) with
    | some u => some u
    | none => extractUrl t

/-- One attempted match of `/(?:-X|--request)\s+([A-Z]+)/` at the
current position. -/
def matchMethodAt (cs : List Char) : Option (List Char) :=
  let after : Option (List Char) :=
    if leadB "-X".data cs then some (cs.drop 2)
    else if leadB "--request".data cs then some (cs.drop 9)
    else none
  after.bind (fun rest =>
    if rest.takeWhile isJsSpace = [] then none
    else
      let m := (rest.dropWhile isJsSpace).takeWhile isUpperCh
      if m = [] then none else some m)

/-- Leftmost match of the method regex. -/
def extractMethod : List Char → Option (List Char)
  | [] => none
  | c :: t =>
    match matchMethodAt (c :: t) with
    | some m => some m
    | none => extractMethod t

/-- One attempted match of `/(?:-H|--header)\s+["']([^"']+)["']/` at the
current position; on success, returns the capture together with the
input remaining after the closing quote (the `lastIndex` the global
regex resumes from). -/
def matchHeaderAt (cs : List Char) : Option (List Char × List Char) :=
  let after : Option (List Char) :=
    if leadB "-H".data cs then some (cs.drop 2)
    else if leadB "--header".data cs then some (cs.drop 8)
    else none
  after.bind (fun rest =>
    if rest.takeWhile isJsSpace = [] then none
    else
      match rest.dropWhile isJsSpace with
      | q :: r3 =>
        if q = '\'' || q = '"' then
          let content := r3.takeWhile (fun c => c ≠ '\'' && c ≠ '"')
          if content = [] then none
          else
            match r3.drop content.length with
            | _ :: r4 => some (content, r4)
            | [] => none
        else none
      | [] => none)

/-- All matches of the global header regex, scanning left to right and
resuming after each match.  The fuel starts at the input length; every
step consumes at least one character, so it never runs out before the
scan completes. -/
def scanHeadersAux : Nat → List Char → List (List Char)
  | 0, _ => []
  | _ + 1, [] => []
  | fuel + 1, c :: t =>
    match matchHeaderAt (c :: t) with
    | some (cap, rest) => cap :: scanHeadersAux fuel rest
    | none => scanHeadersAux fuel t

def scanHeaders (cs : List Char) : List (List Char) :=
  scanHeadersAux cs.length cs

/-- `hMatch[1].split(':')` / key / value extraction: a capture with at
least two `:`-separated parts becomes a header with trimmed key (part 0)
and trimmed value (the remaining parts rejoined with `:`). -/
def headerOfCapture (cap : List Char) : List Header :=
  let parts := splitOnChar ':' cap
  match parts with
  | k :: v1 :: vrest =>
    [{ key := ⟨jsTrim k⟩,
       value := ⟨jsTrim (List.intercalate [':'] (v1 :: vrest))⟩,
       enabled := true }]
  | _ => []

def extractHeaders (cs : List Char) : List Header :=
  (scanHeaders cs).flatMap headerOfCapture

/-- The continuation `\s+(['"])([\s\S]*?)\1` of the data regex after a
flag has matched: at least one whitespace, an opening quote, a lazy body
up to the first occurrence of the same quote, and that closing quote. -/
def matchDataCont (rest : List Char) : Option (Char × List Char) :=
  if rest.takeWhile isJsSpace = [] then none
  else
    match rest.dropWhile isJsSpace with
    | q :: r3 =>
      if q = '\'' || q = '"' then
        let body := r3.takeWhile (fun c => c ≠ q)
        if r3.drop body.length = [] then none else some (q, body)
      else none
    | [] => none

/-- One attempted match of
`/(?:-d|--data|--data-raw|--data-binary)\s+(['"])([\s\S]*?)\1/` at the
current position: the alternatives are tried in order, each together
with the continuation, exactly as the regex engine backtracks. -/
def matchDataAt (cs : List Char) : Option (Char × List Char) :=
  let tryFlag : String → Option (Char × List Char) := fun flag =>
    if leadB flag.data cs then matchDataCont (cs.drop flag.data.length) else none
  (tryFlag "-d").orElse (fun _ =>
    (tryFlag "--data").orElse (fun _ =>
      (tryFlag "--data-raw").orElse (fun _ =>
        tryFlag "--data-binary")))

/-- Leftmost match of the data regex (the source runs `exec` once). -/
def extractData : List Char → Option (Char × List Char)
  | [] => none
  | c :: t =>
    match matchDataAt (c :: t) with
    | some r => some r
    | none => extractData t

/-- `parseCurl`: the imported partial config.  Starts from
`{method: 'GET', headers: [], body: '', bodyType: 'none'}`; the URL,
method and header matches fill in their fields; a data match sets the
body, promotes a still-`GET` method to `POST`, and tags the body type
`json` exactly when the body starts with `{`. -/
def parseCurl (curlString : String) : PartialRequestConfig :=
  let cs := cleanCurl curlString
  let url := (extractUrl cs).map (fun u => (⟨u⟩ : String))
  let method :=
    match extractMethod cs with
    | some m => (⟨m⟩ : String)
    | none => "GET"
  let headers := extractHeaders cs
  match extractData cs with
  | some (_, bodyChars) =>
    { url := url,
      method := if method == "GET" then "POST" else method,
      headers := headers,
      body := ⟨bodyChars⟩,
      bodyType := if bodyChars.head? = some '\x7b' then "json" else "text" }
  | none =>
    { url := url, method := method, headers := headers,
      body := "", bodyType := "none" }

/-! ## Execution driver (`handleSend`)

Embedding of the two `handleSend` variants in `src/App.tsx` (first
document, lines 97-195; second document, lines 539-628) restricted to
their observable state effect.  The network call itself, the platform
`JSON.parse`, and the compilation/invocation of the user transformation
script (`new Function('data', script)`) are abstracted:
* `FetchOutcome` carries what the `fetch` either returned (status,
  status text, response headers, the `content-type` header, the raw
  body text and the result of attempting `JSON.parse` on it) or threw
  (the error message);
* `runScript script data` models compiling and invoking the
  transformation script, with a thrown exception represented as
  `Except.error message`.
The first variant additionally interpolates `{{var}}` environment
placeholders into the dispatched request; that affects only the
outgoing call (absorbed into `FetchOutcome`), not the state effect
modelled here. -/

inductive FetchOutcome where
  | success (status : Nat) (statusText : String)
      (respHeaders : List (String × String)) (contentType : Option String)
      (rawText : String) (parsedJson : Option Json)
  | failure (message : String)

structure ResponseData where
  status : Nat
  statusText : String
  time : Nat
  size : String
  headers : List (String × String)
  data : Json
  raw : String
  type : String

structure HistoryItem where
  id : String
  timestamp : Nat
  request : RequestConfig
  responseStatus : Nat

/-- The state `handleSend` updates: the displayed response, the
processed (possibly transformed) data, the history list, and the
selected response tab. -/
structure SendState where
  originalResponse : Option ResponseData
  processedData : Option Json
  history : List HistoryItem
  respTab : String

/-- `setHistory(prev => [newHistory, ...prev].slice(0, 50))`: the capped
history append shared by both variants. -/
def appendHistory (item : HistoryItem) (prev : List HistoryItem) :
    List HistoryItem :=
  (item :: prev).take 50

/-- Response classification shared by both variants: a `content-type`
containing `application/json` attempts `JSON.parse` and falls back to
the raw text on parse failure; a `content-type` containing `xml` is
tagged `xml` without parsing; anything else is raw text. -/
def classifyResponse (contentType : Option String) (rawText : String)
    (parsedJson : Option Json) : Json × String :=
  let ct := contentType.getD ""
  if includesB ct "application/json" then
    match parsedJson with
    | some j => (j, "json")
    | none => (.str rawText, "text")
  else if includesB ct "xml" then (.str rawText, "xml")
  else (.str rawText, "text")

/-- The synthetic response body of the catch branch:
`{ error: err.message || 'Failed to fetch' }`. -/
def errorBody (message : String) : Json :=
  .obj [("error", .str (if message == "" then "Failed to fetch" else message))]

/-- The synthetic `ResponseData` of the catch branch (both variants):
status 0, statusText `'Error'`, empty headers, the error body, the
error message as raw text, tagged `json`. -/
def errorResponse (elapsed : Nat) (message : String) : ResponseData :=
  { status := 0, statusText := "Error", time := elapsed, size := "0 KB",
    headers := [], data := errorBody message, raw := message, type := "json" }

/-- `applyTransformation` of the second variant (`App.tsx` lines
530-538): invoke the script on the data; a thrown exception is caught
and replaced by `{ error: 'Transformation Error', message: e.message }`. -/
def applyTransformation (runScript : String → Json → Except String Json)
    (data : Json) (script : String) : Json :=
  match runScript script data with
  | .ok r => r
  | .error e =>
    .obj [("error", .str "Transformation Error"), ("message", .str e)]

/-- The transform step of the first variant (`App.tsx` lines 158-164):
the script runs inside its own `try`; on a thrown exception `finalData`
keeps the pre-transform value. -/
def transformFallback (runScript : String → Json → Except String Json)
    (data : Json) (script : String) : Json :=
  match runScript script data with
  | .ok r => r
  | .error _ => data

/-- `(rawText.length / 1024).toFixed(2) + ' KB'`: `len / 1024` is exact
in binary floating point, and `toFixed(2)` picks the integer `n` with
`n / 100` closest to it (larger `n` on ties), so the JS computation
equals this integer arithmetic.  (JS `String.length` counts UTF-16 code
units; `String.length` here counts code points — they agree on the
ASCII/BMP data in scope.) -/
def formatSizeKB (len : Nat) : String :=
  let n := (len * 100 + 512) / 1024
  toString (n / 100) ++ "." ++ (if n % 100 < 10 then "0" else "") ++
    toString (n % 100) ++ " KB"

/-- The success branch shared shape: classify, optionally transform
(`variant2` chooses between the two transform behaviours), record the
response, append one history item, and pick the response tab. -/
def handleSendSuccess (useApplyTransformation : Bool)
    (runScript : String → Json → Except String Json) (config : RequestConfig)
    (newId : String) (now elapsed : Nat) (status : Nat) (statusText : String)
    (respHeaders : List (String × String)) (contentType : Option String)
    (rawText : String) (parsedJson : Option Json) (prev : List HistoryItem) :
    SendState :=
  let (data, type) := classifyResponse contentType rawText parsedJson
  let responseData : ResponseData :=
    { status := status, statusText := statusText, time := elapsed,
      size := formatSizeKB rawText.length,
      headers := respHeaders, data := data, raw := rawText, type := type }
  let finalData :=
    if type == "json" && config.transformationScript != "" then
      if useApplyTransformation then
        applyTransformation runScript data config.transformationScript
      else
        transformFallback runScript data config.transformationScript
    else data
  let newHistory : HistoryItem :=
    { id := newId, timestamp := now, request := config, responseStatus := status }
  { originalResponse := some responseData,
    processedData := some finalData,
    history := appendHistory newHistory prev,
    respTab := match finalData with | .arr _ => "table" | _ => "body" }

/-- `handleSend`, first variant (silent transform fallback). -/
def handleSendV1 (runScript : String → Json → Except String Json)
    (config : RequestConfig) (newId : String) (now elapsed : Nat)
    (outcome : FetchOutcome) (prev : List HistoryItem) : SendState :=
  match outcome with
  | .success status statusText respHeaders contentType rawText parsedJson =>
    handleSendSuccess false runScript config newId now elapsed status
      statusText respHeaders contentType rawText parsedJson prev
  | .failure message =>
    { originalResponse := some (errorResponse elapsed message),
      processedData := some (errorBody message),
      history := prev,
      respTab := "body" }

/-- `handleSend`, second variant (transform failures surface through
`applyTransformation`). -/
def handleSendV2 (runScript : String → Json → Except String Json)
    (config : RequestConfig) (newId : String) (now elapsed : Nat)
    (outcome : FetchOutcome) (prev : List HistoryItem) : SendState :=
  match outcome with
  | .success status statusText respHeaders contentType rawText parsedJson =>
    handleSendSuccess true runScript config newId now elapsed status
      statusText respHeaders contentType rawText parsedJson prev
  | .failure message =>
    { originalResponse := some (errorResponse elapsed message),
      processedData := some (errorBody message),
      history := prev,
      respTab := "body" }

/-! ## Shared sample values for witnesses and counterexamples -/

def sampleConfig : RequestConfig :=
  { url := "https://jsonplaceholder.typicode.com/posts", method := "GET",
    headers := [{ key := "Content-Type", value := "application/json", enabled := true }],
    body := "", bodyType := "none", transformationScript := "",
    processingMode := "client" }

def sampleHistoryItem : HistoryItem :=
  { id := "h1", timestamp := 0, request := sampleConfig, responseStatus := 200 }

/-! ## Claim C3 -/

/-- C3: after any number of completed requests the history list holds at
most 50 items, the record of the most recently completed request is at
index 0, and when the cap is exceeded the evicted entry is the oldest
(the last element).  Stated about `appendHistory`, the
`setHistory(prev => [newHistory, ...prev].slice(0, 50))` update that
both `handleSend` variants perform on completion, together with its
closure under any fold of completions starting from the empty list. -/
theorem C3_history_cap_and_order :
    (∀ (i : HistoryItem) (p : List HistoryItem),
      (appendHistory i p).length ≤ 50) ∧
    (∀ (i : HistoryItem) (p : List HistoryItem),
      (appendHistory i p).head? = some i) ∧
    (∀ (i : HistoryItem) (p : List HistoryItem), p.length = 50 →
      appendHistory i p = i :: p.dropLast) ∧
    (∀ items : List HistoryItem,
      (items.foldl (fun h i => appendHistory i h) []).length ≤ 50) := by
  refine ⟨?_, ?_, ?_, ?_⟩
  · intro i p
    simp [appendHistory]
  · intro i p
    simp [appendHistory]
  · intro i p hp
    simp [appendHistory, List.dropLast_eq_take, hp]
  · intro items
    induction items using List.reverseRecOn with
    | nil => simp
    | append_singleton l a _ => simp [appendHistory]

/-- Witness for C3: the eviction clause applied at a full 50-item
history. -/
theorem C3_witness :
    appendHistory sampleHistoryItem (List.replicate 50 sampleHistoryItem) =
      sampleHistoryItem :: (List.replicate 50 sampleHistoryItem).dropLast :=
  C3_history_cap_and_order.2.2.1 sampleHistoryItem _ (by simp)

/-! ## Claim C5 -/

/-- C5 counterexample: a failed call (the catch branch of `handleSend`)
appends **no** history record — starting from an empty history, a
network failure leaves the history empty, contradicting the claim that
every completed call, including failed ones, appends exactly one record
(with status 0).  The status-0 synthetic response exists, but only in
`originalResponse`, not in history. -/
theorem C5_counterexample :
    (handleSendV2 (fun _ d => .ok d) sampleConfig "id1" 0 0
        (.failure "boom") []).history.length = 0 := rfl

/-- C5 as amended: a successful call appends exactly one capped history
record (through `appendHistory`) in both `handleSend` variants; a
network failure is absorbed at the driver boundary (`handleSend` is a
total function returning a state) and produces the synthetic status-0
response with body `{error: message}` — but appends no history record. -/
theorem C5_amended_history_per_call :
    (∀ runScript config newId now elapsed status statusText respHeaders
        contentType rawText parsedJson prev,
      (handleSendV1 runScript config newId now elapsed
          (.success status statusText respHeaders contentType rawText parsedJson)
          prev).history =
        appendHistory
          { id := newId, timestamp := now, request := config,
            responseStatus := status } prev ∧
      (handleSendV2 runScript config newId now elapsed
          (.success status statusText respHeaders contentType rawText parsedJson)
          prev).history =
        appendHistory
          { id := newId, timestamp := now, request := config,
            responseStatus := status } prev) ∧
    (∀ runScript config newId now elapsed message prev,
      (handleSendV1 runScript config newId now elapsed
          (.failure message) prev).history = prev ∧
      (handleSendV2 runScript config newId now elapsed
          (.failure message) prev).history = prev ∧
      (handleSendV1 runScript config newId now elapsed
          (.failure message) prev).originalResponse =
        some (errorResponse elapsed message) ∧
      (handleSendV1 runScript config newId now elapsed
          (.failure message) prev).processedData = some (errorBody message)) := by
  refine ⟨?_, ?_⟩
  · intro runScript config newId now elapsed status statusText respHeaders
      contentType rawText parsedJson prev
    exact ⟨rfl, rfl⟩
  · intro runScript config newId now elapsed message prev
    exact ⟨rfl, rfl, rfl, rfl⟩

/-! ## Claim C4 -/

def throwingScriptConfig : RequestConfig :=
  { sampleConfig with transformationScript := "return data.bad()" }

/-- C4 counterexample: in the second `handleSend` variant a JSON
response with a configured transformation script whose invocation throws
does **not** deliver the pre-transform parsed body: `applyTransformation`
surfaces `{error: 'Transformation Error', message}` as the processed
data instead. -/
theorem C4_counterexample :
    (handleSendV2 (fun _ _ => .error "kaput") throwingScriptConfig "id2" 0 0
        (.success 200 "OK" [] (some "application/json") "5" (some (.num 5)))
        []).processedData =
      some (.obj [("error", .str "Transformation Error"),
                  ("message", .str "kaput")]) ∧
    (handleSendV2 (fun _ _ => .error "kaput") throwingScriptConfig "id2" 0 0
        (.success 200 "OK" [] (some "application/json") "5" (some (.num 5)))
        []).processedData ≠ some (.num 5) := by
  refine ⟨rfl, ?_⟩
  intro h
  rw [show (handleSendV2 (fun _ _ => .error "kaput") throwingScriptConfig "id2"
      0 0 (.success 200 "OK" [] (some "application/json") "5" (some (.num 5)))
      []).processedData =
    some (.obj [("error", .str "Transformation Error"),
                ("message", .str "kaput")]) from rfl] at h
  simp at h

/-- C4 as amended: when the response is classified JSON and a
transformation script is configured, a script exception is caught in
both variants, but only the first variant falls back silently to the
pre-transform parsed body; the second variant delivers the synthetic
error object `{error: 'Transformation Error', message}` as the
processed data. -/
theorem C4_amended_transform_exception (runScript : String → Json → Except String Json)
    (config : RequestConfig) (newId : String) (now elapsed status : Nat)
    (statusText : String) (respHeaders : List (String × String)) (ct rawText : String)
    (j : Json) (msg : String) (prev : List HistoryItem)
    (hct : includesB ct "application/json" = true)
    (hscript : config.transformationScript ≠ "")
    (herr : runScript config.transformationScript j = .error msg) :
    (handleSendV1 runScript config newId now elapsed
        (.success status statusText respHeaders (some ct) rawText (some j))
        prev).processedData = some j ∧
    (handleSendV2 runScript config newId now elapsed
        (.success status statusText respHeaders (some ct) rawText (some j))
        prev).processedData =
      some (.obj [("error", .str "Transformation Error"),
                  ("message", .str msg)]) := by
  constructor <;>
    simp [handleSendV1, handleSendV2, handleSendSuccess, classifyResponse,
      hct, hscript, transformFallback, applyTransformation, herr]

/-- Witness for C4's amended theorem at a concrete throwing script. -/
theorem C4_amended_witness :
    (handleSendV1 (fun _ _ => .error "kaput") throwingScriptConfig "id2" 0 0
        (.success 200 "OK" [] (some "application/json") "5" (some (.num 5)))
        []).processedData = some (.num 5) :=
  (C4_amended_transform_exception (fun _ _ => .error "kaput")
    throwingScriptConfig "id2" 0 0 200 "OK" [] "application/json" "5"
    (.num 5) "kaput" [] (by decide) (by decide) rfl).1

/-! ## Claim C9 -/

/-- C9: the documented import scenario.  Parsing
`curl --location --request POST 'https://api.test/x' --header
'Authorization: Bearer t' --data-raw '{"a":1}'` produces method `POST`,
the quoted URL, the single enabled `Authorization` header, the raw JSON
body, and (since the body starts with `{`) body type `json`. -/
theorem C9_curl_import_scenario :
    parseCurl "curl --location --request POST 'https://api.test/x' --header 'Authorization: Bearer t' --data-raw '\x7b\"a\":1\x7d'" =
      { url := some "https://api.test/x",
        method := "POST",
        headers := [{ key := "Authorization", value := "Bearer t", enabled := true }],
        body := "\x7b\"a\":1\x7d",
        bodyType := "json" } := by decide

/-! ## Claim C10 -/

/-- C10 counterexample: an **explicit** `-X GET` together with a data
flag is still promoted to `POST` — the importer promotes whenever the
method is `GET` at that point (`config.method === 'GET' ? 'POST' : ...`),
not only when the method was left implicit.  The claim that "when an
explicit method is present it is kept unchanged" fails for `-X GET`. -/
theorem C10_counterexample :
    (parseCurl "curl -X GET 'https://api.test/x' -d 'hello'").method = "POST" ∧
    extractMethod (cleanCurl "curl -X GET 'https://api.test/x' -d 'hello'") =
      some "GET".data := by decide

/-- C10 as amended: when a data flag matches, the imported method is
promoted to `POST` exactly when the method is `GET` at that point —
whether `GET` was the default (no `-X`/`--request` match) or explicit;
an explicit non-`GET` method is kept; and the body type is `json`
precisely when the extracted body starts with `{` (and `text`
otherwise). -/
theorem C10_amended_data_flag_promotion :
    (∀ s : String, extractMethod (cleanCurl s) = none →
      ∀ q b, extractData (cleanCurl s) = some (q, b) →
        (parseCurl s).method = "POST") ∧
    (∀ (s : String) (m : List Char), extractMethod (cleanCurl s) = some m →
      (⟨m⟩ : String) = "GET" →
      ∀ q b, extractData (cleanCurl s) = some (q, b) →
        (parseCurl s).method = "POST") ∧
    (∀ (s : String) (m : List Char), extractMethod (cleanCurl s) = some m →
      (⟨m⟩ : String) ≠ "GET" →
      ∀ q b, extractData (cleanCurl s) = some (q, b) →
        (parseCurl s).method = (⟨m⟩ : String)) ∧
    (∀ (s : String) (m : List Char), extractMethod (cleanCurl s) = some m →
      extractData (cleanCurl s) = none →
      (parseCurl s).method = (⟨m⟩ : String)) ∧
    (∀ (s : String) (q : Char) (b : List Char),
      extractData (cleanCurl s) = some (q, b) →
      ((parseCurl s).bodyType = "json" ↔ b.head? = some '\x7b') ∧
      (parseCurl s).body = (⟨b⟩ : String)) := by
  refine ⟨?_, ?_, ?_, ?_, ?_⟩
  · intro s hm q b hd
    simp [parseCurl, hm, hd]
  · intro s m hm hget q b hd
    simp [parseCurl, hm, hd, hget]
  · intro s m hm hget q b hd
    simp [parseCurl, hm, hd, hget]
  · intro s m hm hd
    simp [parseCurl, hm, hd]
  · intro s q b hd
    refine ⟨?_, ?_⟩
    · constructor
      · intro hj
        simp [parseCurl, hd] at hj
        by_contra hne
        simp [hne] at hj
      · intro hh
        simp [parseCurl, hd, hh]
    · simp [parseCurl, hd]

/-- Witness for C10's amended theorem: an explicit `--request PUT` with
a data flag keeps `PUT`, and a `{`-led body is tagged `json`. -/
theorem C10_amended_witness :
    (parseCurl "curl --request PUT 'https://h.io/p' --data '\x7bz\x7d'").method = "PUT" ∧
    ((parseCurl "curl --request PUT 'https://h.io/p' --data '\x7bz\x7d'").bodyType = "json" ↔
      ("\x7bz\x7d" : String).data.head? = some '\x7b') := by
  constructor
  · exact C10_amended_data_flag_promotion.2.2.1 _ "PUT".data (by decide)
      (by decide) '\'' "\x7bz\x7d".data (by decide)
  · exact (C10_amended_data_flag_promotion.2.2.2.2 _ '\'' "\x7bz\x7d".data
      (by decide)).1

/-! ## Claim C7 -/

/-- C7: for every JSON array and criteria list (and any behaviour of the
platform regex primitive), the rows accepted under `matchType = AND`
form a sublist — in particular a subset — of the rows accepted under
`matchType = OR` with the same criteria and data. -/
theorem C7_and_sublist_or (regexTest : String → String → Bool)
    (criteria : List Criterion) (data : List Json) :
    List.Sublist (advancedSearchResult regexTest "AND" criteria data)
      (advancedSearchResult regexTest "OR" criteria data) := by
  apply List.monotone_filter_right
  intro a ha
  cases criteria with
  | nil => simp [filterFn] at ha ⊢
  | cons c cs =>
    simp [filterFn, List.all_cons, List.any_cons] at ha ⊢
    exact Or.inl ha.1

/-! ## Claim C1 -/

def cfgHeadBody : RequestConfig :=
  { url := "https://e.x/a", method := "HEAD", headers := [], body := "zz",
    bodyType := "json", transformationScript := "", processingMode := "client" }

def cfgGetBody : RequestConfig :=
  { url := "https://e.x/a", method := "GET", headers := [], body := "zz",
    bodyType := "json", transformationScript := "", processingMode := "client" }

/-- C1 counterexample: the first-variant generator emits body-setting
statements for GET/HEAD requests.  Its `curl` template guards the body
only with `method !== 'GET'`, so a HEAD request with a non-empty body
gets a `--data-raw` clause (the output depends on the body); and its
`python` template assigns `payload = <body>` unconditionally, so even a
GET request's snippet depends on the body. -/
theorem C1_counterexample :
    CodeGenV1.generateLocalCode cfgHeadBody "curl" ≠
      CodeGenV1.generateLocalCode { cfgHeadBody with body := "" } "curl" ∧
    subB "--data-raw".data (CodeGenV1.generateLocalCode cfgHeadBody "curl").data
      = true ∧
    CodeGenV1.generateLocalCode cfgGetBody "python" ≠
      CodeGenV1.generateLocalCode { cfgGetBody with body := "" } "python" := by
  decide

/-- Every scenario's body erased: the vehicle for stating that a
generated snippet does not depend on the descriptor's body. -/
def clearScenarioBody (s : Scenario) : Scenario := { s with body := "" }

def clearBodyV2 (cfg : RequestConfigV2) : RequestConfigV2 :=
  { cfg with scenarios := cfg.scenarios.map clearScenarioBody }

theorem activeScenario_clearBodyV2 (cfg : RequestConfigV2) :
    CodeGenV2.activeScenario (clearBodyV2 cfg) =
      (CodeGenV2.activeScenario cfg).map clearScenarioBody := by
  unfold CodeGenV2.activeScenario clearBodyV2
  simp only [List.get?_eq_getElem?, List.getElem?_map]
  cases cfg.scenarios[cfg.activeScenarioIndex]? <;> rfl

theorem dispatch_bodyIndep (url m : String) (hs : List Header)
    (b b' lang : String) (h : m = "GET" ∨ m = "HEAD") :
    CodeGenV2.dispatch url m hs b lang = CodeGenV2.dispatch url m hs b' lang := by
  rcases h with h | h <;> subst h <;>
    simp only [CodeGenV2.dispatch] <;> split_ifs <;>
      simp_all [CodeGenV2.jsFetchCase, CodeGenV2.jsAxiosCase,
        CodeGenV2.pyRequestsCase, CodeGenV2.curlCase]

/-- C1 as amended: the second-variant generator never emits a
body-setting statement for GET or HEAD (its snippets do not depend on
the body at all, for every target); in the first variant this holds for
GET only, and only for the `curl` and `javascript` targets (its
`python`, `go` and `java` templates embed the body for every method,
and HEAD requests get body clauses); in the `part_000` variant it holds
for GET for every target (its REST guards are `method !== 'GET'`, so
HEAD is again not exempted). -/
theorem C1_amended_no_body_for_get_head :
    (∀ (cfg : RequestConfigV2) (lang : String),
      cfg.method = "GET" ∨ cfg.method = "HEAD" →
      CodeGenV2.generateLocalCode cfg lang =
        CodeGenV2.generateLocalCode (clearBodyV2 cfg) lang) ∧
    (∀ (cfg : RequestConfig) (lang : String), cfg.method = "GET" →
      lang = "curl" ∨ lang = "javascript" →
      CodeGenV1.generateLocalCode cfg lang =
        CodeGenV1.generateLocalCode { cfg with body := "" } lang) ∧
    (∀ (cfg : RequestConfig) (lang : String), cfg.method = "GET" →
      CodeGenP0.generateLocalCode cfg lang =
        CodeGenP0.generateLocalCode { cfg with body := "" } lang) := by
  refine ⟨?_, ?_, ?_⟩
  · intro cfg lang h
    unfold CodeGenV2.generateLocalCode
    rw [activeScenario_clearBodyV2]
    show CodeGenV2.dispatch cfg.url cfg.method _ _ lang =
      CodeGenV2.dispatch cfg.url cfg.method _ _ lang
    cases hx : CodeGenV2.activeScenario cfg with
    | none => rfl
    | some s =>
      exact dispatch_bodyIndep cfg.url cfg.method s.headers s.body "" lang h
  · intro cfg lang hm hl
    rcases hl with hl | hl <;> subst hl <;>
      simp [CodeGenV1.generateLocalCode, CodeGenV1.curlCase,
        CodeGenV1.javascriptCase, hm]
  · intro cfg lang hm
    unfold CodeGenP0.generateLocalCode
    split_ifs <;>
      simp_all [CodeGenP0.reactAxiosCase, CodeGenP0.angularHttpCase,
        CodeGenP0.nextjsServerCase, CodeGenP0.jsFetchCase, hm]

def sampleScenario : Scenario :=
  { id := "s", name := "s", body := "zz", bodyType := "json",
    headers := [], params := [], version := "1", lastChanged := "" }

def cfgV2Head : RequestConfigV2 :=
  { id := "1", url := "https://e.x/a", method := "HEAD",
    scenarios := [sampleScenario], activeScenarioIndex := 0 }

/-- Witness for C1's amended theorem at concrete GET/HEAD configs. -/
theorem C1_amended_witness :
    CodeGenV2.generateLocalCode cfgV2Head "javascript-fetch" =
      CodeGenV2.generateLocalCode (clearBodyV2 cfgV2Head) "javascript-fetch" ∧
    CodeGenV1.generateLocalCode cfgGetBody "curl" =
      CodeGenV1.generateLocalCode { cfgGetBody with body := "" } "curl" ∧
    CodeGenP0.generateLocalCode cfgGetBody "js-fetch" =
      CodeGenP0.generateLocalCode { cfgGetBody with body := "" } "js-fetch" :=
  ⟨C1_amended_no_body_for_get_head.1 cfgV2Head "javascript-fetch" (Or.inr rfl),
   C1_amended_no_body_for_get_head.2.1 cfgGetBody "curl" rfl (Or.inl rfl),
   C1_amended_no_body_for_get_head.2.2 cfgGetBody "js-fetch" rfl⟩

/-! ## Claim C6 -/

/-- C6 counterexample: the claim bounds returned paths by 2
dot-separators, but a single object key that itself contains dots is
returned verbatim as a path — `{"a.b.c.d": 1}` yields the path
`"a.b.c.d"` with 3 dot-separators (the guard `path.split('.').length <
3` only limits further recursion, not the path already added). -/
theorem C6_counterexample :
    availableFields (.obj [("a.b.c.d", .num 1)]) = ["a.b.c.d"] ∧
    ("a.b.c.d" : String).data.count '.' = 3 := by decide

mutual
/-- No object key anywhere in the value contains a `'.'` character (the
regime in which dotted paths faithfully count their key segments). -/
def dotFreeKeys : Json → Bool
  | .obj fs => dotFreeFields fs
  | .arr xs => dotFreeList xs
  | _ => true
def dotFreeFields : List (String × Json) → Bool
  | [] => true
  | (k, v) :: rest =>
    k.data.count '.' == 0 && dotFreeKeys v && dotFreeFields rest
def dotFreeList : List Json → Bool
  | [] => true
  | x :: rest => dotFreeKeys x && dotFreeList rest
end

theorem mem_insertSorted {a x : String} {l : List String}
    (h : a ∈ insertSorted x l) : a = x ∨ a ∈ l := by
  induction l with
  | nil => simp [insertSorted] at h; simp [h]
  | cons y t ih =>
    rw [insertSorted] at h
    split at h
    · simpa using h
    · rcases List.mem_cons.mp h with h | h
      · exact Or.inr (by simp [h])
      · rcases ih h with h | h
        · exact Or.inl h
        · exact Or.inr (List.mem_cons_of_mem _ h)

theorem mem_sortStrings {a : String} {l : List String}
    (h : a ∈ sortStrings l) : a ∈ l := by
  induction l with
  | nil => simpa [sortStrings] using h
  | cons x t ih =>
    rw [sortStrings] at h
    rcases mem_insertSorted h with h | h
    · simp [h]
    · exact List.mem_cons_of_mem _ (ih h)

theorem mem_dedupFirst {a : String} :
    ∀ {l seen : List String}, a ∈ dedupFirst l seen → a ∈ l := by
  intro l
  induction l with
  | nil => intro seen h; simp [dedupFirst] at h
  | cons x t ih =>
    intro seen h
    rw [dedupFirst] at h
    split at h
    · exact List.mem_cons_of_mem _ (ih h)
    · rcases List.mem_cons.mp h with h | h
      · simp [h]
      · exact List.mem_cons_of_mem _ (ih h)

theorem dotFreeList_mem {xs : List Json} {x : Json}
    (hdf : dotFreeList xs = true) (hx : x ∈ xs) : dotFreeKeys x = true := by
  induction xs with
  | nil => simp at hx
  | cons y t ih =>
    rw [dotFreeList, Bool.and_eq_true] at hdf
    rcases List.mem_cons.mp hx with h | h
    · exact h ▸ hdf.1
    · exact ih hdf.2 h

/-- The central bound: with dot-free keys, every path produced by
`extractPathsFields` under a prefix with at most 1 dot (or the empty
initial prefix) has at most 2 dots.  Strong induction on `sizeOf`
because the recursion descends both into the tail and into nested
object values. -/
theorem extractPathsFields_count :
    ∀ (n : Nat) (fs : List (String × Json)) (pre : String), sizeOf fs = n →
      dotFreeFields fs = true → (pre = "" ∨ pre.data.count '.' ≤ 1) →
      ∀ p ∈ extractPathsFields fs pre, p.data.count '.' ≤ 2 := by
  intro n
  induction n using Nat.strong_induction_on with
  | _ n ih =>
    intro fs pre hn hdf hpre p hp
    match fs, hn with
    | [], hn => simp [extractPathsFields] at hp
    | (k, v) :: rest, hn =>
      rw [dotFreeFields, Bool.and_eq_true, Bool.and_eq_true] at hdf
      obtain ⟨⟨hk, hv⟩, hrest⟩ := hdf
      have hk0 : k.data.count '.' = 0 := by simpa using hk
      rw [extractPathsFields] at hp
      have hpathcount :
          (if pre = "" then k else pre ++ "." ++ k).data.count '.' ≤ 2 := by
        by_cases hpe : pre = ""
        · simp [hpe, hk0]
        · rcases hpre with hpre | hpre
          · exact absurd hpre hpe
          · simp [hpe, String.data_append, List.count_append, hk0]
            omega
      rcases List.mem_append.mp hp with hp | hp
      · rcases List.mem_cons.mp hp with hp | hp
        · exact hp ▸ hpathcount
        · by_cases hg :
              recurseGuard v (if pre = "" then k else pre ++ "." ++ k) = true
          · rw [if_pos hg] at hp
            match v, hp with
            | .obj innerfs, hp =>
              rw [recurseGuard, Bool.and_eq_true] at hg
              have hsz : sizeOf innerfs < n := by
                rw [← hn]
                simp only [List.cons.sizeOf_spec, Prod.mk.sizeOf_spec,
                  Json.obj.sizeOf_spec]
                omega
              refine ih (sizeOf innerfs) hsz innerfs _ rfl ?_ ?_ p
                (by rwa [extractPaths] at hp)
              · simpa [dotFreeKeys] using hv
              · right
                have := hg.2
                simp only [decide_eq_true_eq] at this
                omega
          · rw [if_neg hg] at hp
            simp at hp
      · have hsz : sizeOf rest < n := by
          rw [← hn]
          simp only [List.cons.sizeOf_spec]
          omega
        exact ih (sizeOf rest) hsz rest pre rfl hrest hpre p hp

/-- C6 as amended: schema discovery (i) inspects at most the first 50
elements of an array input, (ii) returns only paths with at most 2
dot-separators **provided no key itself contains a dot** (the
counterexample shows dotted keys escape the bound; with dot-free keys a
path is the dot-join of at most 3 keys), and (iii) never recurses into
an array value or into a nested object with 10 or more own keys
(`recurseGuard` rejects both). -/
theorem C6_amended_schema_discovery_bounds :
    (∀ xs : List Json,
      availableFields (.arr xs) = availableFields (.arr (xs.take 50))) ∧
    (∀ data : Json, dotFreeKeys data = true →
      ∀ p ∈ availableFields data, p.data.count '.' ≤ 2) ∧
    (∀ (xs : List Json) (path : String),
      recurseGuard (.arr xs) path = false) ∧
    (∀ (fs : List (String × Json)) (path : String), 10 ≤ fs.length →
      recurseGuard (.obj fs) path = false) := by
  refine ⟨?_, ?_, ?_, ?_⟩
  · intro xs
    simp [availableFields, sampleItems, List.take_take]
  · intro data hdf p hp
    have hp2 := mem_dedupFirst (mem_sortStrings hp)
    rw [List.mem_flatMap] at hp2
    obtain ⟨item, hitem, hpitem⟩ := hp2
    have hitemdf : dotFreeKeys item = true := by
      match data, hitem with
      | .arr xs, hitem =>
        exact dotFreeList_mem (by simpa [dotFreeKeys] using hdf)
          (List.take_subset 50 xs (by simpa [sampleItems] using hitem))
      | .null, hitem | .bool _, hitem | .num _, hitem | .str _, hitem
      | .obj _, hitem =>
        simp only [sampleItems, List.mem_singleton] at hitem
        exact hitem ▸ hdf
    match item, hpitem with
    | .obj fs, hpitem =>
      exact extractPathsFields_count (sizeOf fs) fs "" rfl
        (by simpa [dotFreeKeys] using hitemdf) (Or.inl rfl) p
        (by rwa [extractPaths] at hpitem)
    | .null, hpitem | .bool _, hpitem | .num _, hpitem | .str _, hpitem
    | .arr _, hpitem =>
      simp [extractPaths] at hpitem
  · intro xs path
    rfl
  · intro fs path h
    simp only [recurseGuard, Bool.and_eq_false_iff]
    left
    simpa using h

/-- Witness for C6's amended theorem: the dot-count bound applied to a
concrete dot-free nested object. -/
theorem C6_witness : ("a.b" : String).data.count '.' ≤ 2 :=
  C6_amended_schema_discovery_bounds.2.1 (.obj [("a", .obj [("b", .num 1)])])
    (by decide) "a.b" (by decide)

/-! ## Claim C8 -/

/-- A "plain object" in the JS sense of the flatten recursion guard
(`typeof v === 'object' && v !== null && !Array.isArray(v)`). -/
def isPlainObj : Json → Bool
  | .obj _ => true
  | _ => false

theorem str_empty_append (s : String) : "" ++ s = s := rfl

/-- `insAssign` preserves "every stored value is a non-object" when the
inserted value is one. -/
theorem insAssign_valuesFlat {acc : List (String × Json)} {k : String}
    {v : Json} (hacc : ∀ p ∈ acc, isPlainObj p.2 = false)
    (hv : isPlainObj v = false) :
    ∀ p ∈ insAssign acc k v, isPlainObj p.2 = false := by
  intro p hp
  unfold insAssign at hp
  split at hp
  · rw [List.mem_map] at hp
    obtain ⟨q, hq, hqe⟩ := hp
    by_cases hqk : q.1 == k
    · rw [if_pos hqk] at hqe
      exact hqe ▸ hv
    · rw [if_neg hqk] at hqe
      exact hqe ▸ hacc q hq
  · rcases List.mem_append.mp hp with hp | hp
    · exact hacc p hp
    · rw [List.mem_singleton] at hp
      exact hp ▸ hv

/-- `assignPairs` preserves the same invariant when every incoming value
is a non-object. -/
theorem assignPairs_valuesFlat {ps : List (String × Json)} :
    ∀ {acc : List (String × Json)},
      (∀ p ∈ acc, isPlainObj p.2 = false) →
      (∀ p ∈ ps, isPlainObj p.2 = false) →
      ∀ p ∈ assignPairs acc ps, isPlainObj p.2 = false := by
  induction ps with
  | nil => intro acc hacc _ p hp; exact hacc p hp
  | cons q rest ih =>
    intro acc hacc hps p hp
    rw [assignPairs, List.foldl_cons] at hp
    exact ih (insAssign_valuesFlat hacc (hps q (by simp)))
      (fun r hr => hps r (List.mem_cons_of_mem _ hr)) p hp

/-- Unfolding equations for `flattenFields` (stated by hand because the
inner match on the value makes the autogenerated equations
conditional; each holds by `rfl`). -/
theorem flattenFields_cons_obj (k : String) (inner rest acc :
    List (String × Json)) (pre : String) :
    flattenFields ((k, .obj inner) :: rest) pre acc =
      flattenFields rest pre
        (assignPairs acc
          (flattenFields inner ((if pre = "" then "" else pre ++ ".") ++ k) [])) :=
  rfl

theorem flattenFields_cons_leaf {v : Json} (hv : isPlainObj v = false)
    (k : String) (rest acc : List (String × Json)) (pre : String) :
    flattenFields ((k, v) :: rest) pre acc =
      flattenFields rest pre
        (insAssign acc ((if pre = "" then "" else pre ++ ".") ++ k) v) := by
  match v with
  | .null => rfl
  | .bool b => rfl
  | .num n => rfl
  | .str s => rfl
  | .arr xs => rfl
  | .obj ps => simp [isPlainObj] at hv

theorem flattenArr_cons_obj (inner : List (String × Json)) (rest : List Json)
    (i : Nat) (pre : String) (acc : List (String × Json)) :
    flattenArr (.obj inner :: rest) i pre acc =
      flattenArr rest (i + 1) pre
        (assignPairs acc
          (flattenFields inner
            ((if pre = "" then "" else pre ++ ".") ++ toString i) [])) :=
  rfl

theorem flattenArr_cons_leaf {x : Json} (hx : isPlainObj x = false)
    (rest : List Json) (i : Nat) (pre : String) (acc : List (String × Json)) :
    flattenArr (x :: rest) i pre acc =
      flattenArr rest (i + 1) pre
        (insAssign acc ((if pre = "" then "" else pre ++ ".") ++ toString i) x) := by
  match x with
  | .null => rfl
  | .bool b => rfl
  | .num n => rfl
  | .str s => rfl
  | .arr xs => rfl
  | .obj ps => simp [isPlainObj] at hx

/-- Every value stored by `flattenFields` is a non-object: nested plain
objects are recursively inlined, everything else is a leaf. -/
theorem flattenFields_valuesFlat :
    ∀ (n : Nat) (fs : List (String × Json)) (pre : String)
      (acc : List (String × Json)), sizeOf fs = n →
      (∀ p ∈ acc, isPlainObj p.2 = false) →
      ∀ p ∈ flattenFields fs pre acc, isPlainObj p.2 = false := by
  intro n
  induction n using Nat.strong_induction_on with
  | _ n ih =>
    intro fs pre acc hn hacc p hp
    match fs, hn with
    | [], hn =>
      rw [flattenFields] at hp
      exact hacc p hp
    | (k, v) :: rest, hn =>
      have hszrest : sizeOf rest < n := by
        rw [← hn]; simp only [List.cons.sizeOf_spec]; omega
      by_cases hv : isPlainObj v = false
      · rw [flattenFields_cons_leaf hv] at hp
        exact ih (sizeOf rest) hszrest rest pre _ rfl
          (insAssign_valuesFlat hacc hv) p hp
      · match v, hv with
        | .obj inner, _ =>
          rw [flattenFields_cons_obj] at hp
          have hszinner : sizeOf inner < n := by
            rw [← hn]
            simp only [List.cons.sizeOf_spec, Prod.mk.sizeOf_spec,
              Json.obj.sizeOf_spec]
            omega
          refine ih (sizeOf rest) hszrest rest pre _ rfl ?_ p hp
          exact assignPairs_valuesFlat hacc
            (ih (sizeOf inner) hszinner inner _ [] rfl (by simp))

/-- Same invariant for the array walker. -/
theorem flattenArr_valuesFlat :
    ∀ (xs : List Json) (i : Nat) (pre : String)
      (acc : List (String × Json)),
      (∀ p ∈ acc, isPlainObj p.2 = false) →
      ∀ p ∈ flattenArr xs i pre acc, isPlainObj p.2 = false := by
  intro xs
  induction xs with
  | nil =>
    intro i pre acc hacc p hp
    rw [flattenArr] at hp
    exact hacc p hp
  | cons x rest ih =>
    intro i pre acc hacc p hp
    by_cases hx : isPlainObj x = false
    · rw [flattenArr_cons_leaf hx] at hp
      exact ih _ pre _ (insAssign_valuesFlat hacc hx) p hp
    · match x, hx with
      | .obj inner, _ =>
        rw [flattenArr_cons_obj] at hp
        refine ih _ pre _ ?_ p hp
        exact assignPairs_valuesFlat hacc
          (flattenFields_valuesFlat (sizeOf inner) inner _ [] rfl (by simp))

/-- `insAssign` keeps the stored key list duplicate-free (an overwrite
leaves the keys unchanged; an append adds a key that was absent). -/
theorem keys_insAssign_overwrite {acc : List (String × Json)} {k : String}
    {v : Json} (h : acc.any (fun p => p.1 == k) = true) :
    (insAssign acc k v).map Prod.fst = acc.map Prod.fst := by
  unfold insAssign
  rw [if_pos h, List.map_map]
  refine List.map_congr_left ?_
  intro p _
  by_cases hpk : p.1 == k
  · simp only [Function.comp_apply, if_pos hpk]
    exact (eq_of_beq hpk).symm
  · simp only [Function.comp_apply, if_neg hpk]

theorem nodup_insAssign {acc : List (String × Json)} {k : String} {v : Json}
    (h : (acc.map Prod.fst).Nodup) :
    ((insAssign acc k v).map Prod.fst).Nodup := by
  by_cases hany : acc.any (fun p => p.1 == k) = true
  · rw [keys_insAssign_overwrite hany]; exact h
  · unfold insAssign
    rw [if_neg hany]
    have hk : k ∉ acc.map Prod.fst := by
      intro hmem
      apply hany
      rw [List.any_eq_true]
      obtain ⟨p, hp, hpe⟩ := List.mem_map.mp hmem
      exact ⟨p, hp, by simp [hpe]⟩
    simp [List.nodup_append, h, hk]

theorem nodup_assignPairs :
    ∀ (ps acc : List (String × Json)), (acc.map Prod.fst).Nodup →
      ((assignPairs acc ps).map Prod.fst).Nodup := by
  intro ps
  induction ps with
  | nil => intro acc h; exact h
  | cons q rest ih =>
    intro acc h
    rw [assignPairs, List.foldl_cons]
    exact ih _ (nodup_insAssign h)

theorem flattenFields_keysNodup :
    ∀ (fs : List (String × Json)) (pre : String)
      (acc : List (String × Json)), (acc.map Prod.fst).Nodup →
      ((flattenFields fs pre acc).map Prod.fst).Nodup := by
  intro fs
  induction fs with
  | nil => intro pre acc h; rw [flattenFields]; exact h
  | cons q rest ih =>
    intro pre acc h
    obtain ⟨k, v⟩ := q
    by_cases hv : isPlainObj v = false
    · rw [flattenFields_cons_leaf hv]
      exact ih pre _ (nodup_insAssign h)
    · match v, hv with
      | .obj inner, _ =>
        rw [flattenFields_cons_obj]
        exact ih pre _ (nodup_assignPairs _ _ h)

theorem flattenArr_keysNodup :
    ∀ (xs : List Json) (i : Nat) (pre : String)
      (acc : List (String × Json)), (acc.map Prod.fst).Nodup →
      ((flattenArr xs i pre acc).map Prod.fst).Nodup := by
  intro xs
  induction xs with
  | nil => intro i pre acc h; rw [flattenArr]; exact h
  | cons x rest ih =>
    intro i pre acc h
    by_cases hx : isPlainObj x = false
    · rw [flattenArr_cons_leaf hx]
      exact ih _ pre _ (nodup_insAssign h)
    · match x, hx with
      | .obj inner, _ =>
        rw [flattenArr_cons_obj]
        exact ih _ pre _ (nodup_assignPairs _ _ h)

/-- Flattening a flat object with fresh, duplicate-free keys just
replays its pairs: the reduce appends each leaf in order. -/
theorem flattenFields_flat_fixpoint :
    ∀ (ps acc : List (String × Json)),
      (∀ p ∈ ps, isPlainObj p.2 = false) →
      (∀ p ∈ ps, p.1 ∉ acc.map Prod.fst) →
      (ps.map Prod.fst).Nodup →
      flattenFields ps "" acc = acc ++ ps := by
  intro ps
  induction ps with
  | nil => intro acc _ _ _; rw [flattenFields]; simp
  | cons q rest ih =>
    intro acc hflat hdisj hnodup
    obtain ⟨k, v⟩ := q
    rw [flattenFields_cons_leaf (hflat (k, v) (by simp))]
    have hkey : ((if ("" : String) = "" then "" else "" ++ ".") ++ k) = k := by
      rw [if_pos rfl, str_empty_append]
    rw [hkey]
    have hkacc : k ∉ acc.map Prod.fst := hdisj (k, v) (by simp)
    have hins : insAssign acc k v = acc ++ [(k, v)] := by
      unfold insAssign
      rw [if_neg]
      intro hany
      apply hkacc
      rw [List.any_eq_true] at hany
      obtain ⟨p, hp, hpe⟩ := hany
      exact (eq_of_beq hpe) ▸ List.mem_map_of_mem Prod.fst hp
    rw [hins]
    rw [List.map_cons, List.nodup_cons] at hnodup
    rw [ih (acc ++ [(k, v)])
      (fun p hp => hflat p (List.mem_cons_of_mem _ hp))
      (fun p hp => by
        rw [List.map_append]
        intro hmem
        rcases List.mem_append.mp hmem with hm | hm
        · exact hdisj p (List.mem_cons_of_mem _ hp) hm
        · rw [List.map_singleton, List.mem_singleton] at hm
          exact hnodup.1 (hm ▸ List.mem_map_of_mem Prod.fst hp))
      hnodup.2]
    simp

/-- C8: the flatten quick operation is idempotent —
`flatten(flatten(x)) == flatten(x)` for every JSON value (objects in
particular), and the same holds for `DataTable.flattenObject`; an
already-flat object is returned unchanged (the object case below
reduces to exactly that fixpoint fact). -/
theorem C8_flatten_idempotent :
    (∀ x : Json, flattenJson (flattenJson x "") "" = flattenJson x "") ∧
    (∀ x : Json, flattenObject (flattenObject x "") "" = flattenObject x "") := by
  have fix : ∀ ps : List (String × Json),
      (∀ p ∈ ps, isPlainObj p.2 = false) → (ps.map Prod.fst).Nodup →
      flattenFields ps "" [] = ps := by
    intro ps h1 h2
    simpa using flattenFields_flat_fixpoint ps [] h1 (by simp) h2
  constructor
  · intro x
    match x with
    | .null => rfl
    | .bool b => rfl
    | .num n => rfl
    | .str s => rfl
    | .obj fs =>
      show Json.obj (flattenFields (flattenFields fs "" []) "" []) =
        Json.obj (flattenFields fs "" [])
      rw [fix _ (flattenFields_valuesFlat (sizeOf fs) fs "" [] rfl (by simp))
        (flattenFields_keysNodup fs "" [] (by simp))]
    | .arr xs =>
      show Json.obj (flattenFields (flattenArr xs 0 "" []) "" []) =
        Json.obj (flattenArr xs 0 "" [])
      rw [fix _ (flattenArr_valuesFlat xs 0 "" [] (by simp))
        (flattenArr_keysNodup xs 0 "" [] (by simp))]
  · intro x
    match x with
    | .obj fs =>
      show Json.obj (flattenFields (flattenFields fs "" []) "" []) =
        Json.obj (flattenFields fs "" [])
      rw [fix _ (flattenFields_valuesFlat (sizeOf fs) fs "" [] rfl (by simp))
        (flattenFields_keysNodup fs "" [] (by simp))]
    | .arr xs =>
      show Json.obj (flattenFields (flattenArr xs 0 "" []) "" []) =
        Json.obj (flattenArr xs 0 "" [])
      rw [fix _ (flattenArr_valuesFlat xs 0 "" [] (by simp))
        (flattenArr_keysNodup xs 0 "" [] (by simp))]
    | .null =>
      show Json.obj (flattenFields [("value", Json.null)] "" []) =
        Json.obj [("value", Json.null)]
      rw [fix _ (by simp [isPlainObj]) (by simp)]
    | .bool b =>
      show Json.obj (flattenFields [("value", Json.bool b)] "" []) =
        Json.obj [("value", Json.bool b)]
      rw [fix _ (by simp [isPlainObj]) (by simp)]
    | .num n =>
      show Json.obj (flattenFields [("value", Json.num n)] "" []) =
        Json.obj [("value", Json.num n)]
      rw [fix _ (by simp [isPlainObj]) (by simp)]
    | .str s =>
      show Json.obj (flattenFields [("value", Json.str s)] "" []) =
        Json.obj [("value", Json.str s)]
      rw [fix _ (by simp [isPlainObj]) (by simp)]

/-! ## Claim C2 -/

/-- The needle occurs as a contiguous substring of the haystack. -/
def containsStr (hay needle : String) : Prop :=
  needle.data <:+: hay.data

instance (hay needle : String) : Decidable (containsStr hay needle) :=
  inferInstanceAs (Decidable (needle.data <:+: hay.data))

theorem sub_here (u t : List Char) : u <:+: u ++ t :=
  ⟨[], t, by simp⟩

theorem sub_skip (s : List Char) {u t : List Char} (h : u <:+: t) :
    u <:+: s ++ t := by
  obtain ⟨a, b, rfl⟩ := h
  exact ⟨s ++ a, b, by simp⟩

theorem data_ne_nil_append (a b : String) (h : a.data ≠ []) :
    (a ++ b).data ≠ [] := by
  rw [String.data_append]
  intro e
  exact h (List.append_eq_nil.mp e).1

theorem ne_empty_of_data (s : String) (h : s.data ≠ []) : s ≠ "" := by
  intro e
  rw [e] at h
  exact h rfl

theorem curlV1_props (url m b : String) (hs : List Header) :
    containsStr (CodeGenV1.curlCase url m b hs) url ∧
      CodeGenV1.curlCase url m b hs ≠ "" := by
  constructor
  · unfold containsStr CodeGenV1.curlCase
    simp only [String.data_append, List.append_assoc]
    repeat first
    | exact sub_here _ _
    | apply sub_skip
  · apply ne_empty_of_data
    unfold CodeGenV1.curlCase
    repeat apply data_ne_nil_append
    decide

theorem javascriptV1_props (url m b : String) (ho : List (String × String)) :
    containsStr (CodeGenV1.javascriptCase url m b ho) url ∧
      CodeGenV1.javascriptCase url m b ho ≠ "" := by
  constructor
  · unfold containsStr CodeGenV1.javascriptCase
    simp only [String.data_append, List.append_assoc]
    repeat first
    | exact sub_here _ _
    | apply sub_skip
  · apply ne_empty_of_data
    unfold CodeGenV1.javascriptCase
    repeat apply data_ne_nil_append
    decide

theorem pythonV1_props (url m b : String) (ho : List (String × String)) :
    containsStr (CodeGenV1.pythonCase url m b ho) url ∧
      CodeGenV1.pythonCase url m b ho ≠ "" := by
  constructor
  · unfold containsStr CodeGenV1.pythonCase
    simp only [String.data_append, List.append_assoc]
    repeat first
    | exact sub_here _ _
    | apply sub_skip
  · apply ne_empty_of_data
    unfold CodeGenV1.pythonCase
    repeat apply data_ne_nil_append
    decide

theorem goV1_props (url m b : String) (hs : List Header) :
    containsStr (CodeGenV1.goCase url m b hs) url ∧
      CodeGenV1.goCase url m b hs ≠ "" := by
  constructor
  · unfold containsStr CodeGenV1.goCase
    simp only [String.data_append, List.append_assoc]
    repeat first
    | exact sub_here _ _
    | apply sub_skip
  · apply ne_empty_of_data
    unfold CodeGenV1.goCase
    repeat apply data_ne_nil_append
    decide

theorem javaV1_props (url m b : String) (hs : List Header) :
    containsStr (CodeGenV1.javaCase url m b hs) url ∧
      CodeGenV1.javaCase url m b hs ≠ "" := by
  constructor
  · unfold containsStr CodeGenV1.javaCase
    simp only [String.data_append, List.append_assoc]
    repeat first
    | exact sub_here _ _
    | apply sub_skip
  · apply ne_empty_of_data
    unfold CodeGenV1.javaCase
    repeat apply data_ne_nil_append
    decide

theorem nodeMongo_props (url b : String) :
    containsStr (CodeGenV2.nodeMongoCase url b) url ∧
      CodeGenV2.nodeMongoCase url b ≠ "" := by
  constructor
  · unfold containsStr CodeGenV2.nodeMongoCase
    simp only [String.data_append, List.append_assoc]
    repeat first
    | exact sub_here _ _
    | apply sub_skip
  · apply ne_empty_of_data
    unfold CodeGenV2.nodeMongoCase
    repeat apply data_ne_nil_append
    decide

theorem pymongo_props (url b : String) :
    containsStr (CodeGenV2.pymongoCase url b) url ∧
      CodeGenV2.pymongoCase url b ≠ "" := by
  constructor
  · unfold containsStr CodeGenV2.pymongoCase
    simp only [String.data_append, List.append_assoc]
    repeat first
    | exact sub_here _ _
    | apply sub_skip
  · apply ne_empty_of_data
    unfold CodeGenV2.pymongoCase
    repeat apply data_ne_nil_append
    decide

theorem nodePg_props (url b : String) :
    containsStr (CodeGenV2.nodePgCase url b) url ∧
      CodeGenV2.nodePgCase url b ≠ "" := by
  constructor
  · unfold containsStr CodeGenV2.nodePgCase
    simp only [String.data_append, List.append_assoc]
    repeat first
    | exact sub_here _ _
    | apply sub_skip
  · apply ne_empty_of_data
    unfold CodeGenV2.nodePgCase
    repeat apply data_ne_nil_append
    decide

theorem nodeMysql_props (url b : String) :
    containsStr (CodeGenV2.nodeMysqlCase url b) url ∧
      CodeGenV2.nodeMysqlCase url b ≠ "" := by
  constructor
  · unfold containsStr CodeGenV2.nodeMysqlCase
    simp only [String.data_append, List.append_assoc]
    repeat first
    | exact sub_here _ _
    | apply sub_skip
  · apply ne_empty_of_data
    unfold CodeGenV2.nodeMysqlCase
    repeat apply data_ne_nil_append
    decide

theorem psycopg_props (url b : String) :
    containsStr (CodeGenV2.psycopgCase url b) url ∧
      CodeGenV2.psycopgCase url b ≠ "" := by
  constructor
  · unfold containsStr CodeGenV2.psycopgCase
    simp only [String.data_append, List.append_assoc]
    repeat first
    | exact sub_here _ _
    | apply sub_skip
  · apply ne_empty_of_data
    unfold CodeGenV2.psycopgCase
    repeat apply data_ne_nil_append
    decide

theorem jsFetchV2_props (url m b : String) (ho : List (String × String)) :
    containsStr (CodeGenV2.jsFetchCase url m b ho) url ∧
      CodeGenV2.jsFetchCase url m b ho ≠ "" := by
  constructor
  · unfold containsStr CodeGenV2.jsFetchCase
    simp only [String.data_append, List.append_assoc]
    repeat first
    | exact sub_here _ _
    | apply sub_skip
  · apply ne_empty_of_data
    unfold CodeGenV2.jsFetchCase
    repeat apply data_ne_nil_append
    decide

theorem jsAxiosV2_props (url m b : String) (ho : List (String × String)) :
    containsStr (CodeGenV2.jsAxiosCase url m b ho) url ∧
      CodeGenV2.jsAxiosCase url m b ho ≠ "" := by
  constructor
  · unfold containsStr CodeGenV2.jsAxiosCase
    simp only [String.data_append, List.append_assoc]
    repeat first
    | exact sub_here _ _
    | apply sub_skip
  · apply ne_empty_of_data
    unfold CodeGenV2.jsAxiosCase
    repeat apply data_ne_nil_append
    decide

theorem pyRequestsV2_props (url m b : String) (ho : List (String × String)) :
    containsStr (CodeGenV2.pyRequestsCase url m b ho) url ∧
      CodeGenV2.pyRequestsCase url m b ho ≠ "" := by
  constructor
  · unfold containsStr CodeGenV2.pyRequestsCase
    simp only [String.data_append, List.append_assoc]
    repeat first
    | exact sub_here _ _
    | apply sub_skip
  · apply ne_empty_of_data
    unfold CodeGenV2.pyRequestsCase
    repeat apply data_ne_nil_append
    decide

theorem curlV2_props (url m b : String) (hs : List Header) :
    containsStr (CodeGenV2.curlCase url m b hs) url ∧
      CodeGenV2.curlCase url m b hs ≠ "" := by
  constructor
  · unfold containsStr CodeGenV2.curlCase
    simp only [String.data_append, List.append_assoc]
    repeat first
    | exact sub_here _ _
    | apply sub_skip
  · apply ne_empty_of_data
    unfold CodeGenV2.curlCase
    repeat apply data_ne_nil_append
    decide

theorem sqlRaw_props (b : String) :
    CodeGenV2.sqlRawCase b = "-- Raw Generated Query\n" ++ b ∧
      CodeGenV2.sqlRawCase b ≠ "" := by
  refine ⟨rfl, ?_⟩
  apply ne_empty_of_data
  unfold CodeGenV2.sqlRawCase
  repeat apply data_ne_nil_append
  decide

theorem reactAxios_props (url m b : String) (ho : List (String × String)) :
    containsStr (CodeGenP0.reactAxiosCase url m b ho) url ∧
      CodeGenP0.reactAxiosCase url m b ho ≠ "" := by
  constructor
  · unfold containsStr CodeGenP0.reactAxiosCase
    simp only [String.data_append, List.append_assoc]
    repeat first
    | exact sub_here _ _
    | apply sub_skip
  · apply ne_empty_of_data
    unfold CodeGenP0.reactAxiosCase
    repeat apply data_ne_nil_append
    decide

theorem angularHttp_props (url m b : String) (ho : List (String × String)) :
    containsStr (CodeGenP0.angularHttpCase url m b ho) url ∧
      CodeGenP0.angularHttpCase url m b ho ≠ "" := by
  constructor
  · unfold containsStr CodeGenP0.angularHttpCase
    simp only [String.data_append, List.append_assoc]
    repeat first
    | exact sub_here _ _
    | apply sub_skip
  · apply ne_empty_of_data
    unfold CodeGenP0.angularHttpCase
    repeat apply data_ne_nil_append
    decide

theorem nextjsServer_props (url m b : String) (ho : List (String × String)) :
    containsStr (CodeGenP0.nextjsServerCase url m b ho) url ∧
      CodeGenP0.nextjsServerCase url m b ho ≠ "" := by
  constructor
  · unfold containsStr CodeGenP0.nextjsServerCase
    simp only [String.data_append, List.append_assoc]
    repeat first
    | exact sub_here _ _
    | apply sub_skip
  · apply ne_empty_of_data
    unfold CodeGenP0.nextjsServerCase
    repeat apply data_ne_nil_append
    decide

theorem jsFetchP0_props (url m b : String) (ho : List (String × String)) :
    containsStr (CodeGenP0.jsFetchCase url m b ho) url ∧
      CodeGenP0.jsFetchCase url m b ho ≠ "" := by
  constructor
  · unfold containsStr CodeGenP0.jsFetchCase
    simp only [String.data_append, List.append_assoc]
    repeat first
    | exact sub_here _ _
    | apply sub_skip
  · apply ne_empty_of_data
    unfold CodeGenP0.jsFetchCase
    repeat apply data_ne_nil_append
    decide

theorem nodeFtp_ne_empty (url : String) : CodeGenP0.nodeFtpCase url ≠ "" := by
  apply ne_empty_of_data
  unfold CodeGenP0.nodeFtpCase
  repeat apply data_ne_nil_append
  decide

def sqlScenario : Scenario :=
  { id := "s", name := "s", body := "SELECT 1", bodyType := "sql",
    headers := [], params := [], version := "1", lastChanged := "" }

def sqlCfg : RequestConfigV2 :=
  { id := "1", url := "postgres://db.host/x", method := "SQL_QUERY",
    scenarios := [sqlScenario], activeScenarioIndex := 0 }

def ftpCfg : RequestConfig :=
  { url := "ftp://files.host/a.txt", method := "GET", headers := [],
    body := "", bodyType := "none", transformationScript := "",
    processingMode := "client" }

/-- C2 counterexample: two supported targets whose snippets do not
contain the descriptor's URL.  The `sql-raw` template emits only a
comment line and the raw body, and `node-ftp` splices only the URL's
hostname and pathname (never the full URL string).  The ftp witness URL
satisfies `ftpUrlWellFormed`, so on it the embedding agrees exactly
with `new URL` and the counterexample reflects the source's actual
output. -/
theorem C2_counterexample :
    ("sql-raw" ∈ CodeGenV2.supportedLangs sqlCfg.method ∧
      CodeGenV2.generateLocalCode sqlCfg "sql-raw" =
        "-- Raw Generated Query\nSELECT 1" ∧
      ¬ containsStr (CodeGenV2.generateLocalCode sqlCfg "sql-raw") sqlCfg.url) ∧
    (startsB ftpCfg.url "ftp://" = true ∧
      CodeGenP0.ftpUrlWellFormed ftpCfg.url = true ∧
      ¬ containsStr (CodeGenP0.generateLocalCode ftpCfg "node-ftp") ftpCfg.url) := by
  refine ⟨⟨by decide, rfl, by decide⟩, ⟨rfl, by decide, by decide⟩⟩

/-- C2 as amended: for every request descriptor, every supported target
of the first-variant generator, every supported target of the
second-variant generator **except `sql-raw`**, and every REST-mode
target of the `part_000` generator (ftp-mode's sole target `node-ftp`
excluded) yields a non-empty snippet containing the descriptor's URL as
a literal substring.  `sql-raw` still yields a non-empty snippet — the
fixed comment line plus the raw body, with no URL; `node-ftp` splices
only the URL's hostname and pathname, and yields its (non-empty,
URL-free) snippet only on ftp URLs where `new URL(url)` succeeds — on
the `ftpUrlWellFormed` domain modelled here; on malformed ftp URLs
(e.g. `ftp://` or `ftp:///x`) the source's `new URL` throws a
`TypeError` and no snippet is produced at all. -/
theorem C2_amended_url_in_snippet :
    (∀ (cfg : RequestConfig) (lang : String),
      lang ∈ CodeGenV1.supportedLangs →
      containsStr (CodeGenV1.generateLocalCode cfg lang) cfg.url ∧
        CodeGenV1.generateLocalCode cfg lang ≠ "") ∧
    (∀ (cfg : RequestConfigV2) (lang : String),
      lang ∈ CodeGenV2.supportedLangs cfg.method → lang ≠ "sql-raw" →
      containsStr (CodeGenV2.generateLocalCode cfg lang) cfg.url ∧
        CodeGenV2.generateLocalCode cfg lang ≠ "") ∧
    (∀ (cfg : RequestConfig) (lang : String),
      lang ∈ CodeGenP0.restLangs → startsB cfg.url "ftp://" = false →
      containsStr (CodeGenP0.generateLocalCode cfg lang) cfg.url ∧
        CodeGenP0.generateLocalCode cfg lang ≠ "") ∧
    (∀ b : String,
      CodeGenV2.sqlRawCase b = "-- Raw Generated Query\n" ++ b ∧
        CodeGenV2.sqlRawCase b ≠ "") ∧
    (∀ cfg : RequestConfig, startsB cfg.url "ftp://" = true →
      CodeGenP0.ftpUrlWellFormed cfg.url = true →
      CodeGenP0.generateLocalCode cfg "node-ftp" ≠ "") := by
  refine ⟨?_, ?_, ?_, sqlRaw_props, ?_⟩
  · intro cfg lang hl
    simp only [CodeGenV1.supportedLangs, List.mem_cons,
      List.not_mem_nil, or_false] at hl
    rcases hl with rfl | rfl | rfl | rfl | rfl
    · exact curlV1_props cfg.url cfg.method cfg.body _
    · exact javascriptV1_props cfg.url cfg.method cfg.body _
    · exact pythonV1_props cfg.url cfg.method cfg.body _
    · exact goV1_props cfg.url cfg.method cfg.body _
    · exact javaV1_props cfg.url cfg.method cfg.body _
  · intro cfg lang hl hsql
    by_cases hm1 : (cfg.method == "MONGO_QUERY") = true
    · rw [CodeGenV2.supportedLangs, if_pos hm1] at hl
      simp only [List.mem_cons, List.not_mem_nil, or_false] at hl
      unfold CodeGenV2.generateLocalCode CodeGenV2.dispatch
      rcases hl with rfl | rfl <;> simp only [hm1, if_true] <;> simp
      · exact nodeMongo_props cfg.url _
      · exact pymongo_props cfg.url _
    · by_cases hm2 : (cfg.method == "SQL_QUERY") = true
      · rw [CodeGenV2.supportedLangs, if_neg hm1, if_pos hm2] at hl
        simp only [List.mem_cons, List.not_mem_nil, or_false] at hl
        unfold CodeGenV2.generateLocalCode CodeGenV2.dispatch
        rcases hl with rfl | rfl | rfl | rfl
        · simp only [hm1, hm2, if_true, Bool.false_eq_true, if_false]
          simp
          exact nodePg_props cfg.url _
        · simp only [hm1, hm2, if_true, Bool.false_eq_true, if_false]
          simp
          exact nodeMysql_props cfg.url _
        · simp only [hm1, hm2, if_true, Bool.false_eq_true, if_false]
          simp
          exact psycopg_props cfg.url _
        · exact absurd rfl hsql
      · rw [CodeGenV2.supportedLangs, if_neg hm1, if_neg hm2] at hl
        simp only [List.mem_cons, List.not_mem_nil, or_false] at hl
        unfold CodeGenV2.generateLocalCode CodeGenV2.dispatch
        rcases hl with rfl | rfl | rfl | rfl <;>
          simp only [hm1, hm2, Bool.false_eq_true, if_false] <;> simp
        · exact jsFetchV2_props cfg.url cfg.method _ _
        · exact jsAxiosV2_props cfg.url cfg.method _ _
        · exact pyRequestsV2_props cfg.url cfg.method _ _
        · exact curlV2_props cfg.url cfg.method _ _
  · intro cfg lang hl hftp
    simp only [CodeGenP0.restLangs, List.mem_cons,
      List.not_mem_nil, or_false] at hl
    unfold CodeGenP0.generateLocalCode
    rcases hl with rfl | rfl | rfl | rfl <;>
      simp only [hftp, Bool.false_eq_true, if_false] <;> simp
    · exact reactAxios_props cfg.url cfg.method cfg.body _
    · exact angularHttp_props cfg.url cfg.method cfg.body _
    · exact nextjsServer_props cfg.url cfg.method cfg.body _
    · exact jsFetchP0_props cfg.url cfg.method cfg.body _
  · intro cfg hftp _
    unfold CodeGenP0.generateLocalCode
    simp only [hftp, if_true]
    simp
    exact nodeFtp_ne_empty cfg.url

/-- Witness for C2's amended theorem across the three generators. -/
theorem C2_amended_witness :
    (containsStr (CodeGenV1.generateLocalCode sampleConfig "curl")
        sampleConfig.url ∧
      CodeGenV1.generateLocalCode sampleConfig "curl" ≠ "") ∧
    (containsStr (CodeGenV2.generateLocalCode sqlCfg "node-pg") sqlCfg.url ∧
      CodeGenV2.generateLocalCode sqlCfg "node-pg" ≠ "") ∧
    (containsStr (CodeGenP0.generateLocalCode sampleConfig "js-fetch")
        sampleConfig.url ∧
      CodeGenP0.generateLocalCode sampleConfig "js-fetch" ≠ "") ∧
    CodeGenP0.generateLocalCode ftpCfg "node-ftp" ≠ "" :=
  ⟨C2_amended_url_in_snippet.1 sampleConfig "curl" (by decide),
   C2_amended_url_in_snippet.2.1 sqlCfg "node-pg" (by decide) (by decide),
   C2_amended_url_in_snippet.2.2.1 sampleConfig "js-fetch" (by decide) (by decide),
   C2_amended_url_in_snippet.2.2.2.2 ftpCfg rfl (by decide)⟩
